import Mathlib

/-!
Shallow embedding of `sync_garmin_data.py`, a script that mirrors data from a
remote fitness API into a local tree of JSON files.

Modelling conventions, fixed once here:

* JSON values are the inductive `Json`.  Calendar dates are integers (day
  numbers); the ISO-8601 rendering `d.isoformat()` of a date `d` is modelled by
  the constructor `Json.dateStr d` (ISO date strings are non-empty, hence
  truthy, and `datetime.strptime` inverts `isoformat`).
* The filesystem is an association list `FS` from structured paths `FPath` to
  `Json` contents; `fsWrite` prepends and `fsLookup` takes the first match, so
  the newest write wins, matching `save_json`'s overwrite semantics.  The
  activity file name `f"{aid}.json"` is keyed by the id value itself.
* The remote client is an oracle `Api : ApiMethod → Nat → CallOutcome` giving,
  for every method-with-arguments and every retry attempt index, either a
  result or one of the exception classes the script discriminates on.  A fixed
  oracle models "the remote API returns the same data" across runs.
* Side effects are an event trace `List Ev`: remote invocations, `time.sleep`
  calls, decision-relevant `print` messages (pure progress lines are not
  modelled), and file writes.
* The unbounded `while True` pagination loop of `sync_activities_full` and the
  credential retry loop of `init_api` take an explicit fuel / script argument;
  exhausting it models the loop still running.
* Non-JSON-serialisable responses, `.get` on a non-dict, iteration over a
  truthy non-list batch and `strptime` of a truthy non-date value would raise
  in Python; the claims under study stay away from those regions and the model
  maps them to the inert `Json.null` / `none` branches.
-/

/-- JSON values as stored in the mirrored files and returned by the remote
API.  `dateStr d` stands for the ISO-8601 string rendering of the date `d`. -/
inductive Json where
  | null
  | bool (b : Bool)
  | num (n : Int)
  | str (s : String)
  | dateStr (d : Int)
  | arr (elems : List Json)
  | obj (fields : List (String × Json))

mutual

/-- Decidable equality for `Json`, by structural recursion (the nested
inductive prevents `deriving`). -/
def Json.deq : (a b : Json) → Decidable (a = b)
  | .null, .null => isTrue rfl
  | .bool a, .bool b =>
    match Bool.decEq a b with
    | isTrue h => isTrue (by rw [h])
    | isFalse h => isFalse (by intro hh; injection hh; contradiction)
  | .num a, .num b =>
    match Int.decEq a b with
    | isTrue h => isTrue (by rw [h])
    | isFalse h => isFalse (by intro hh; injection hh; contradiction)
  | .str a, .str b =>
    match String.decEq a b with
    | isTrue h => isTrue (by rw [h])
    | isFalse h => isFalse (by intro hh; injection hh; contradiction)
  | .dateStr a, .dateStr b =>
    match Int.decEq a b with
    | isTrue h => isTrue (by rw [h])
    | isFalse h => isFalse (by intro hh; injection hh; contradiction)
  | .arr xs, .arr ys =>
    match Json.deqList xs ys with
    | isTrue h => isTrue (by rw [h])
    | isFalse h => isFalse (by intro hh; injection hh; contradiction)
  | .obj xs, .obj ys =>
    match Json.deqFields xs ys with
    | isTrue h => isTrue (by rw [h])
    | isFalse h => isFalse (by intro hh; injection hh; contradiction)
  | .null, .bool _ => isFalse (by intro h; exact Json.noConfusion h)
  | .null, .num _ => isFalse (by intro h; exact Json.noConfusion h)
  | .null, .str _ => isFalse (by intro h; exact Json.noConfusion h)
  | .null, .dateStr _ => isFalse (by intro h; exact Json.noConfusion h)
  | .null, .arr _ => isFalse (by intro h; exact Json.noConfusion h)
  | .null, .obj _ => isFalse (by intro h; exact Json.noConfusion h)
  | .bool _, .null => isFalse (by intro h; exact Json.noConfusion h)
  | .bool _, .num _ => isFalse (by intro h; exact Json.noConfusion h)
  | .bool _, .str _ => isFalse (by intro h; exact Json.noConfusion h)
  | .bool _, .dateStr _ => isFalse (by intro h; exact Json.noConfusion h)
  | .bool _, .arr _ => isFalse (by intro h; exact Json.noConfusion h)
  | .bool _, .obj _ => isFalse (by intro h; exact Json.noConfusion h)
  | .num _, .null => isFalse (by intro h; exact Json.noConfusion h)
  | .num _, .bool _ => isFalse (by intro h; exact Json.noConfusion h)
  | .num _, .str _ => isFalse (by intro h; exact Json.noConfusion h)
  | .num _, .dateStr _ => isFalse (by intro h; exact Json.noConfusion h)
  | .num _, .arr _ => isFalse (by intro h; exact Json.noConfusion h)
  | .num _, .obj _ => isFalse (by intro h; exact Json.noConfusion h)
  | .str _, .null => isFalse (by intro h; exact Json.noConfusion h)
  | .str _, .bool _ => isFalse (by intro h; exact Json.noConfusion h)
  | .str _, .num _ => isFalse (by intro h; exact Json.noConfusion h)
  | .str _, .dateStr _ => isFalse (by intro h; exact Json.noConfusion h)
  | .str _, .arr _ => isFalse (by intro h; exact Json.noConfusion h)
  | .str _, .obj _ => isFalse (by intro h; exact Json.noConfusion h)
  | .dateStr _, .null => isFalse (by intro h; exact Json.noConfusion h)
  | .dateStr _, .bool _ => isFalse (by intro h; exact Json.noConfusion h)
  | .dateStr _, .num _ => isFalse (by intro h; exact Json.noConfusion h)
  | .dateStr _, .str _ => isFalse (by intro h; exact Json.noConfusion h)
  | .dateStr _, .arr _ => isFalse (by intro h; exact Json.noConfusion h)
  | .dateStr _, .obj _ => isFalse (by intro h; exact Json.noConfusion h)
  | .arr _, .null => isFalse (by intro h; exact Json.noConfusion h)
  | .arr _, .bool _ => isFalse (by intro h; exact Json.noConfusion h)
  | .arr _, .num _ => isFalse (by intro h; exact Json.noConfusion h)
  | .arr _, .str _ => isFalse (by intro h; exact Json.noConfusion h)
  | .arr _, .dateStr _ => isFalse (by intro h; exact Json.noConfusion h)
  | .arr _, .obj _ => isFalse (by intro h; exact Json.noConfusion h)
  | .obj _, .null => isFalse (by intro h; exact Json.noConfusion h)
  | .obj _, .bool _ => isFalse (by intro h; exact Json.noConfusion h)
  | .obj _, .num _ => isFalse (by intro h; exact Json.noConfusion h)
  | .obj _, .str _ => isFalse (by intro h; exact Json.noConfusion h)
  | .obj _, .dateStr _ => isFalse (by intro h; exact Json.noConfusion h)
  | .obj _, .arr _ => isFalse (by intro h; exact Json.noConfusion h)termination_by structural a => a

/-- Decidable equality for lists of `Json`. -/
def Json.deqList : (xs ys : List Json) → Decidable (xs = ys)
  | [], [] => isTrue rfl
  | [], _ :: _ => isFalse (by intro h; exact List.noConfusion h)
  | _ :: _, [] => isFalse (by intro h; exact List.noConfusion h)
  | x :: xs, y :: ys =>
    match Json.deq x y, Json.deqList xs ys with
    | isTrue h1, isTrue h2 => isTrue (by rw [h1, h2])
    | isFalse h1, _ => isFalse (by intro h; injection h; contradiction)
    | _, isFalse h2 => isFalse (by intro h; injection h; contradiction)
termination_by structural xs => xs

/-- Decidable equality for JSON object field lists. -/
def Json.deqFields : (xs ys : List (String × Json)) → Decidable (xs = ys)
  | [], [] => isTrue rfl
  | [], _ :: _ => isFalse (by intro h; exact List.noConfusion h)
  | _ :: _, [] => isFalse (by intro h; exact List.noConfusion h)
  | (k1, v1) :: xs, (k2, v2) :: ys =>
    match String.decEq k1 k2, Json.deq v1 v2, Json.deqFields xs ys with
    | isTrue h0, isTrue h1, isTrue h2 => isTrue (by rw [h0, h1, h2])
    | isFalse h0, _, _ => isFalse (by intro h; injection h with h3 h4; injection h3; contradiction)
    | _, isFalse h1, _ => isFalse (by intro h; injection h with h3 h4; injection h3; contradiction)
    | _, _, isFalse h2 => isFalse (by intro h; injection h; contradiction)
termination_by structural xs => xs

end

instance : DecidableEq Json := Json.deq

/-- Python truthiness of a JSON value (`if not aid`, `if last`, `if not batch`).
An ISO date string is non-empty, hence truthy. -/
def truthy : Json → Bool
  | .null => false
  | .bool b => b
  | .num n => n != 0
  | .str s => s != ""
  | .dateStr _ => true
  | .arr elems => !elems.isEmpty
  | .obj fields => !fields.isEmpty

/-- First binding of a key in a JSON object's field list. -/
def lookupField : List (String × Json) → String → Option Json
  | [], _ => none
  | (k, v) :: rest, key => if k = key then some v else lookupField rest key

/-- Python `d.get(key)` on a JSON object (`None`, i.e. `null`, when absent). -/
def jGet (j : Json) (key : String) : Json :=
  match j with
  | .obj fields => (lookupField fields key).getD .null
  | _ => .null

/-- The element list of a JSON array (the remote list endpoints return
arrays; `for activity in batch` and `len(batch)` read this list). -/
def jArr : Json → List Json
  | .arr elems => elems
  | _ => []

/-- Model of `datetime.strptime(last, "%Y-%m-%d").date()` on a stored value:
defined on the ISO date strings produced by `save_sync_state`. -/
def parse_iso_date : Json → Option Int
  | .dateStr d => some d
  | _ => none

/-- Structured file paths under the base data directory `~/garmin_data`. -/
inductive FPath where
  | syncState
  | daily (d : Int) (filename : String)
  | activity (aid : Json)
  | bodyComp (filename : String)
  | weekly (filename : String)
  | profile (filename : String)
  | personalRecords
deriving DecidableEq

/-- The local file tree: newest write first; `fsLookup` takes the first match,
so a later `save_json` overwrites an earlier one at the same path. -/
abbrev FS := List (FPath × Json)

/-- Content of the file at a path, if present. -/
def fsLookup : FS → FPath → Option Json
  | [], _ => none
  | (q, v) :: rest, p => if q = p then some v else fsLookup rest p

/-- Python `filepath.exists()`. -/
def fsExists (fs : FS) (p : FPath) : Bool :=
  (fsLookup fs p).isSome

/-- One remote method together with its arguments, as invoked by the script.
String arguments built from dates (`date_str`, `isoformat()`) are keyed by the
underlying date number, and `str(aid)` by the id value. -/
inductive ApiMethod where
  | get_user_summary (d : Int)
  | get_heart_rates (d : Int)
  | get_sleep_data (d : Int)
  | get_all_day_stress (d : Int)
  | get_respiration_data (d : Int)
  | get_spo2_data (d : Int)
  | get_hrv_data (d : Int)
  | get_training_readiness (d : Int)
  | get_hydration_data (d : Int)
  | get_intensity_minutes_data (d : Int)
  | get_floors (d : Int)
  | get_steps_data (d : Int)
  | get_body_battery (startD endD : Int)
  | get_activities (start limit : Nat)
  | get_activity (aid : Json)
  | get_activities_by_date (startD endD : Int)
  | get_body_composition (startD endD : Int)
  | get_weigh_ins (startD endD : Int)
  | get_weekly_steps (d : Int) (weeks : Nat)
  | get_weekly_stress (d : Int) (weeks : Nat)
  | get_user_profile
  | get_devices
  | get_personal_record
deriving DecidableEq

/-- Outcome of one attempt of a remote call: a JSON result, or one of the
exception classes `api_call` discriminates on. -/
inductive CallOutcome where
  | ok (v : Json)
  | tooManyRequests
  | garthHTTP (has429 : Bool)
  | otherError
deriving DecidableEq

/-- The remote client as an oracle: for each method-with-arguments and each
attempt index, the outcome of invoking it. -/
abbrev Api := ApiMethod → Nat → CallOutcome

/-- Decision-relevant messages printed by the script (pure progress lines are
not modelled). -/
inductive Msg where
  | rateLimitedWaiting (wait : Nat)
  | warning
  | givingUp
  | noNewActivities
  | rateLimitedDuringMfa
  | invalidMfaCode
  | mfaFailed
  | invalidCredentials
  | connectionErrorDuringLogin
  | authenticatedWithStoredTokens
  | authenticatedSuccessfully
deriving DecidableEq

/-- One observable side effect of a run. -/
inductive Ev where
  | invoke (m : ApiMethod)
  | sleepSecs (s : Nat)
  | msg (m : Msg)
  | write (p : FPath) (v : Json)
deriving DecidableEq

/-- Module constant `HISTORY_DAYS = 365`. -/
def HISTORY_DAYS : Int := 365

/-- Module constant `API_DELAY = 1.0` (in whole seconds). -/
def API_DELAY : Nat := 1

/-- Module constant `MAX_RETRIES = 3`. -/
def MAX_RETRIES : Nat := 3

/-- Module constant `RETRY_BACKOFF = 5`. -/
def RETRY_BACKOFF : Nat := 5

/-- The `for attempt in range(MAX_RETRIES)` loop of `api_call`, starting at
attempt index `attempt` with `remaining` loop iterations left.  A
`GarminConnectTooManyRequestsError`, or a `GarthHTTPError` whose text contains
"429", waits `RETRY_BACKOFF * (attempt + 1)` seconds and retries; any other
`GarthHTTPError` returns `None` at once (without a message); any other
exception prints a warning and returns `None`; falling off the loop prints
"Giving up after max retries." and returns `None`. -/
def api_call_from (api : Api) (m : ApiMethod) : Nat → Nat → Option Json × List Ev
  | _, 0 => (none, [Ev.msg Msg.givingUp])
  | attempt, remaining + 1 =>
    match api m attempt with
    | .ok v => (some v, [Ev.invoke m])
    | .tooManyRequests =>
      let wait := RETRY_BACKOFF * (attempt + 1)
      let (res, evs) := api_call_from api m (attempt + 1) remaining
      (res, Ev.invoke m :: Ev.msg (Msg.rateLimitedWaiting wait) :: Ev.sleepSecs wait :: evs)
    | .garthHTTP true =>
      let wait := RETRY_BACKOFF * (attempt + 1)
      let (res, evs) := api_call_from api m (attempt + 1) remaining
      (res, Ev.invoke m :: Ev.msg (Msg.rateLimitedWaiting wait) :: Ev.sleepSecs wait :: evs)
    | .garthHTTP false => (none, [Ev.invoke m])
    | .otherError => (none, [Ev.invoke m, Ev.msg Msg.warning])

/-- Function `api_call`: call a remote method with bounded retry on rate
limiting, returning the result or `None`, never propagating an exception. -/
def api_call (api : Api) (m : ApiMethod) : Option Json × List Ev :=
  api_call_from api m 0 MAX_RETRIES

/-- Function `save_json`: create parent directories and write `data` as
formatted JSON, overwriting any file at that exact path. -/
def save_json (fs : FS) (p : FPath) (v : Json) : FS × List Ev :=
  (( p, v) :: fs, [Ev.write p v])

/-- The JSON object written by `save_sync_state`. -/
def sync_state_json (d : Int) : Json :=
  Json.obj [("last_sync_date", Json.dateStr d)]

/-- Function `load_sync_state`: last sync date from the state file, or `None`
if the file is missing or its `last_sync_date` field is falsy. -/
def load_sync_state (fs : FS) : Option Int :=
  match fsLookup fs FPath.syncState with
  | some state =>
    let last := jGet state "last_sync_date"
    if truthy last then parse_iso_date last else none
  | none => none

/-- Function `save_sync_state`: overwrite the state file with the given date. -/
def save_sync_state (fs : FS) (d : Int) : FS × List Ev :=
  save_json fs FPath.syncState (sync_state_json d)

/-- The `daily_calls` table of `sync_daily_data`: the twelve single-date
metrics, as (file name, method) pairs keyed by the date. -/
def daily_calls : List (String × (Int → ApiMethod)) :=
  [("summary.json", ApiMethod.get_user_summary),
   ("heart_rate.json", ApiMethod.get_heart_rates),
   ("sleep.json", ApiMethod.get_sleep_data),
   ("stress.json", ApiMethod.get_all_day_stress),
   ("respiration.json", ApiMethod.get_respiration_data),
   ("spo2.json", ApiMethod.get_spo2_data),
   ("hrv.json", ApiMethod.get_hrv_data),
   ("training_readiness.json", ApiMethod.get_training_readiness),
   ("hydration.json", ApiMethod.get_hydration_data),
   ("intensity_minutes.json", ApiMethod.get_intensity_minutes_data),
   ("floors.json", ApiMethod.get_floors),
   ("steps_detail.json", ApiMethod.get_steps_data)]

/-- Body of the `for filename, method in daily_calls` loop of
`sync_daily_data`: skip if the file exists, else fetch with retry, save a
non-`None` result, and sleep `API_DELAY`. -/
def syncDailyMetric (api : Api) (d : Int) (filename : String)
    (meth : Int → ApiMethod) (fs : FS) : FS × List Ev :=
  let filepath := FPath.daily d filename
  if fsExists fs filepath then (fs, [])
  else
    let (data, cevs) := api_call api (meth d)
    match data with
    | some v =>
      let (fs1, wevs) := save_json fs filepath v
      (fs1, cevs ++ wevs ++ [Ev.sleepSecs API_DELAY])
    | none => (fs, cevs ++ [Ev.sleepSecs API_DELAY])

/-- The `for filename, method in daily_calls` loop itself. -/
def syncDailyMetrics (api : Api) (d : Int) :
    List (String × (Int → ApiMethod)) → FS → FS × List Ev
  | [], fs => (fs, [])
  | (filename, meth) :: rest, fs =>
    ((syncDailyMetrics api d rest (syncDailyMetric api d filename meth fs).1).1,
     (syncDailyMetric api d filename meth fs).2 ++
       (syncDailyMetrics api d rest (syncDailyMetric api d filename meth fs).1).2)

/-- The trailing `body_battery` step of one day of `sync_daily_data`: the one
metric taking a (start, end) pair of the same date. -/
def syncBodyBattery (api : Api) (d : Int) (fs : FS) : FS × List Ev :=
  let bbPath := FPath.daily d "body_battery.json"
  if fsExists fs bbPath then (fs, [])
  else
    let (data, cevs) := api_call api (ApiMethod.get_body_battery d d)
    match data with
    | some v =>
      let (fs1, wevs) := save_json fs bbPath v
      (fs1, cevs ++ wevs ++ [Ev.sleepSecs API_DELAY])
    | none => (fs, cevs ++ [Ev.sleepSecs API_DELAY])

/-- One iteration of the `while current <= end` loop of `sync_daily_data`:
the twelve metrics of the day, then `body_battery`. -/
def syncOneDay (api : Api) (d : Int) (fs : FS) : FS × List Ev :=
  ((syncBodyBattery api d (syncDailyMetrics api d daily_calls fs).1).1,
   (syncDailyMetrics api d daily_calls fs).2 ++
     (syncBodyBattery api d (syncDailyMetrics api d daily_calls fs).1).2)

/-- The `while current <= end` loop of `sync_daily_data`, by the number of
remaining days (`current + count - 1` is the last day processed). -/
def syncDaysCount (api : Api) : Int → Nat → FS → FS × List Ev
  | _, 0, fs => (fs, [])
  | current, n + 1, fs =>
    ((syncDaysCount api (current + 1) n (syncOneDay api current fs).1).1,
     (syncOneDay api current fs).2 ++
       (syncDaysCount api (current + 1) n (syncOneDay api current fs).1).2)

/-- Function `sync_daily_data`: per-day health metrics for every date of the
inclusive range, ascending. -/
def sync_daily_data (api : Api) (start finish : Int) (fs : FS) : FS × List Ev :=
  syncDaysCount api start (finish + 1 - start).toNat fs

/-- Body of the `for activity in batch` loop of `sync_activities_full`: skip a
falsy id; count and skip an already-cached id; else fetch the detail, saving
it on success and the summary record itself on failure. -/
def processActivityFull (api : Api) (activity : Json) (fs : FS) (total : Nat) :
    FS × Nat × List Ev :=
  let aid := jGet activity "activityId"
  if truthy aid then
    let filepath := FPath.activity aid
    if fsExists fs filepath then (fs, total + 1, [])
    else
      let (detail, cevs) := api_call api (ApiMethod.get_activity aid)
      match detail with
      | some v =>
        let (fs1, wevs) := save_json fs filepath v
        (fs1, total + 1, cevs ++ wevs ++ [Ev.sleepSecs API_DELAY])
      | none =>
        let (fs1, wevs) := save_json fs filepath activity
        (fs1, total + 1, cevs ++ wevs ++ [Ev.sleepSecs API_DELAY])
  else (fs, total, [])

/-- The `for activity in batch` loop of `sync_activities_full`. -/
def processBatchFull (api : Api) : List Json → FS → Nat → FS × Nat × List Ev
  | [], fs, total => (fs, total, [])
  | a :: rest, fs, total =>
    ((processBatchFull api rest (processActivityFull api a fs total).1
        (processActivityFull api a fs total).2.1).1,
     (processBatchFull api rest (processActivityFull api a fs total).1
        (processActivityFull api a fs total).2.1).2.1,
     (processActivityFull api a fs total).2.2 ++
       (processBatchFull api rest (processActivityFull api a fs total).1
          (processActivityFull api a fs total).2.1).2.2)

/-- The `while True` pagination loop of `sync_activities_full`, with explicit
fuel: list a batch at `start`, stop on a `None` or falsy batch, process it,
stop when it is shorter than `limit`, else advance `start` by `limit`. -/
def syncActivitiesPages (api : Api) : Nat → Nat → Nat → Nat → FS → FS × Nat × List Ev
  | 0, _, _, total, fs => (fs, total, [])
  | fuel + 1, start, limit, total, fs =>
    let (batch, cevs) := api_call api (ApiMethod.get_activities start limit)
    match batch with
    | none => (fs, total, cevs)
    | some b =>
      if truthy b then
        if (jArr b).length < limit then
          ((processBatchFull api (jArr b) fs total).1,
           (processBatchFull api (jArr b) fs total).2.1,
           cevs ++ (processBatchFull api (jArr b) fs total).2.2)
        else
          ((syncActivitiesPages api fuel (start + limit) limit
              (processBatchFull api (jArr b) fs total).2.1
              (processBatchFull api (jArr b) fs total).1).1,
           (syncActivitiesPages api fuel (start + limit) limit
              (processBatchFull api (jArr b) fs total).2.1
              (processBatchFull api (jArr b) fs total).1).2.1,
           cevs ++ (processBatchFull api (jArr b) fs total).2.2 ++
             Ev.sleepSecs API_DELAY ::
               (syncActivitiesPages api fuel (start + limit) limit
                  (processBatchFull api (jArr b) fs total).2.1
                  (processBatchFull api (jArr b) fs total).1).2.2)
      else (fs, total, cevs)

/-- Function `sync_activities_full`: paginate through all activities starting
at offset 0 with batch size 100. -/
def sync_activities_full (api : Api) (fuel : Nat) (fs : FS) : FS × List Ev :=
  ((syncActivitiesPages api fuel 0 100 0 fs).1,
   (syncActivitiesPages api fuel 0 100 0 fs).2.2)

/-- Body of the `for activity in activities` loop of
`sync_activities_incremental`: as in the full path, but without the counter. -/
def processActivityIncr (api : Api) (activity : Json) (fs : FS) : FS × List Ev :=
  let aid := jGet activity "activityId"
  if truthy aid then
    let filepath := FPath.activity aid
    if fsExists fs filepath then (fs, [])
    else
      let (detail, cevs) := api_call api (ApiMethod.get_activity aid)
      match detail with
      | some v =>
        let (fs1, wevs) := save_json fs filepath v
        (fs1, cevs ++ wevs ++ [Ev.sleepSecs API_DELAY])
      | none =>
        let (fs1, wevs) := save_json fs filepath activity
        (fs1, cevs ++ wevs ++ [Ev.sleepSecs API_DELAY])
  else (fs, [])

/-- The `for activity in activities` loop of `sync_activities_incremental`. -/
def processBatchIncr (api : Api) : List Json → FS → FS × List Ev
  | [], fs => (fs, [])
  | a :: rest, fs =>
    ((processBatchIncr api rest (processActivityIncr api a fs).1).1,
     (processActivityIncr api a fs).2 ++
       (processBatchIncr api rest (processActivityIncr api a fs).1).2)

/-- Function `sync_activities_incremental`: one un-paginated listing of the
activities whose date falls in the range, then the cache-or-fetch logic. -/
def sync_activities_incremental (api : Api) (start_date end_date : Int) (fs : FS) :
    FS × List Ev :=
  match (api_call api (ApiMethod.get_activities_by_date start_date end_date)).1 with
  | none =>
    (fs, (api_call api (ApiMethod.get_activities_by_date start_date end_date)).2 ++
      [Ev.msg Msg.noNewActivities])
  | some b =>
    if truthy b then
      ((processBatchIncr api (jArr b) fs).1,
       (api_call api (ApiMethod.get_activities_by_date start_date end_date)).2 ++
         (processBatchIncr api (jArr b) fs).2)
    else
      (fs, (api_call api (ApiMethod.get_activities_by_date start_date end_date)).2 ++
        [Ev.msg Msg.noNewActivities])

/-- One "fetch with retry, write unconditionally when the result is not
`None`" step, the pattern each of the body-composition, weekly, profile and
personal-records groups repeats. -/
def fetchAndSave (api : Api) (m : ApiMethod) (p : FPath) (fs : FS) : FS × List Ev :=
  match (api_call api m).1 with
  | some v =>
    ((save_json fs p v).1, (api_call api m).2 ++ (save_json fs p v).2)
  | none => (fs, (api_call api m).2)

/-- Function `sync_body_composition`: aggregate body composition and weigh-in
records for the range, each written unconditionally when the fetch succeeds. -/
def sync_body_composition (api : Api) (start_date end_date : Int) (fs : FS) :
    FS × List Ev :=
  ((fetchAndSave api (ApiMethod.get_weigh_ins start_date end_date)
      (FPath.bodyComp "weigh_ins.json")
      (fetchAndSave api (ApiMethod.get_body_composition start_date end_date)
        (FPath.bodyComp "body_comp.json") fs).1).1,
   (fetchAndSave api (ApiMethod.get_body_composition start_date end_date)
      (FPath.bodyComp "body_comp.json") fs).2 ++
     Ev.sleepSecs API_DELAY ::
       (fetchAndSave api (ApiMethod.get_weigh_ins start_date end_date)
          (FPath.bodyComp "weigh_ins.json")
          (fetchAndSave api (ApiMethod.get_body_composition start_date end_date)
            (FPath.bodyComp "body_comp.json") fs).1).2)

/-- Function `sync_weekly`: the latest 52 weeks of step and stress aggregates
ending today, written unconditionally when the fetch succeeds.  The source
recomputes `date.today()` here; the run is assumed not to cross midnight. -/
def sync_weekly (api : Api) (today : Int) (fs : FS) : FS × List Ev :=
  ((fetchAndSave api (ApiMethod.get_weekly_stress today 52) (FPath.weekly "stress.json")
      (fetchAndSave api (ApiMethod.get_weekly_steps today 52)
        (FPath.weekly "steps.json") fs).1).1,
   (fetchAndSave api (ApiMethod.get_weekly_steps today 52)
      (FPath.weekly "steps.json") fs).2 ++
     Ev.sleepSecs API_DELAY ::
       (fetchAndSave api (ApiMethod.get_weekly_stress today 52) (FPath.weekly "stress.json")
          (fetchAndSave api (ApiMethod.get_weekly_steps today 52)
            (FPath.weekly "steps.json") fs).1).2)

/-- Function `sync_profile`: user profile and device list, written
unconditionally when the fetch succeeds. -/
def sync_profile (api : Api) (fs : FS) : FS × List Ev :=
  ((fetchAndSave api ApiMethod.get_devices (FPath.profile "devices.json")
      (fetchAndSave api ApiMethod.get_user_profile
        (FPath.profile "user_profile.json") fs).1).1,
   (fetchAndSave api ApiMethod.get_user_profile
      (FPath.profile "user_profile.json") fs).2 ++
     Ev.sleepSecs API_DELAY ::
       (fetchAndSave api ApiMethod.get_devices (FPath.profile "devices.json")
          (fetchAndSave api ApiMethod.get_user_profile
            (FPath.profile "user_profile.json") fs).1).2)

/-- Function `sync_personal_records`: personal records, written
unconditionally when the fetch succeeds. -/
def sync_personal_records (api : Api) (fs : FS) : FS × List Ev :=
  fetchAndSave api ApiMethod.get_personal_record FPath.personalRecords fs

/-- The start date `main` computes once after loading the sync state:
the last sync date if one exists, else `today - HISTORY_DAYS`. -/
def computed_start_date (last_sync : Option Int) (today : Int) : Int :=
  match last_sync with
  | some x => x
  | none => today - HISTORY_DAYS

/-- Sequencing of two effectful steps over the file tree: run the first, run
the second on the resulting tree, concatenate the traces.  `main`'s sync
phase is a chain of such steps. -/
def stepSeq (s1 s2 : FS → FS × List Ev) (fs : FS) : FS × List Ev :=
  ((s2 (s1 fs).1).1, (s1 fs).2 ++ (s2 (s1 fs).1).2)

/-- A step with no file effect, only trace events (the `time.sleep(API_DELAY)`
between groups in `main`). -/
def stepEvs (evs : List Ev) (fs : FS) : FS × List Ev :=
  (fs, evs)

/-- The sync phase of `main` (everything after authentication succeeded):
mode selection, daily sync, activity sync (incremental when a previous sync
date exists, else full), body composition, weekly, profile, personal records,
and the final unconditional state save, with a fixed sleep between groups.
`fuel` bounds the pagination loop of the full activity path. -/
def main_sync (api : Api) (fuel : Nat) (today : Int) (fs : FS) : FS × List Ev :=
  stepSeq (sync_daily_data api (computed_start_date (load_sync_state fs) today) today)
    (stepSeq (stepEvs [Ev.sleepSecs API_DELAY])
      (stepSeq (match load_sync_state fs with
          | some _ => sync_activities_incremental api
              (computed_start_date (load_sync_state fs) today) today
          | none => sync_activities_full api fuel)
        (stepSeq (stepEvs [Ev.sleepSecs API_DELAY])
          (stepSeq (sync_body_composition api
              (computed_start_date (load_sync_state fs) today) today)
            (stepSeq (stepEvs [Ev.sleepSecs API_DELAY])
              (stepSeq (sync_weekly api today)
                (stepSeq (stepEvs [Ev.sleepSecs API_DELAY])
                  (stepSeq (sync_profile api)
                    (stepSeq (stepEvs [Ev.sleepSecs API_DELAY])
                      (stepSeq (sync_personal_records api)
                        (fun fs6 => save_sync_state fs6 today))))))))))) fs

/-- Outcome of the token-restore step of `init_api` (lines 50-57): the stored
tokens authenticate; or one of the four caught error classes falls through to
the credential loop; or a `KeyboardInterrupt` (not caught there) propagates. -/
inductive TokenRestore where
  | ok
  | err
  | interrupted
deriving DecidableEq

/-- Outcome of `garmin.resume_login` during the MFA step, as classified by
`init_api`: success; a `GarthHTTPError` whose text contains "429"; one whose
text contains "401" or "403"; any other `GarthHTTPError`; or a
`GarthException` that is not a `GarthHTTPError`. -/
inductive MfaResume where
  | ok
  | http429
  | http401or403
  | httpOther
  | garthOther
deriving DecidableEq

/-- Outcome of one iteration of the credential loop of `init_api`: a login
that succeeds outright; one that needs MFA (with the resume outcome); a
`GarminConnectAuthenticationError`; one of the caught connection-level
errors; or a `KeyboardInterrupt` at the prompt. -/
inductive LoginAttempt where
  | success
  | needsMfa (resume : MfaResume)
  | authError
  | connError
  | interrupted
deriving DecidableEq

/-- How a call of `init_api` ends: an authenticated client is returned;
`None` is returned; `sys.exit(1)` is called; or a `KeyboardInterrupt`
propagates out of the token-restore step. -/
inductive SessionOutcome where
  | client
  | failure
  | exit1
  | interruptProp
deriving DecidableEq

/-- The `while True` credential loop of `init_api`, driven by the scripted
outcome of each iteration; `none` means the script ended with the loop still
running. -/
def init_api_loop : List LoginAttempt → Option SessionOutcome × List Msg
  | [] => (none, [])
  | attempt :: rest =>
    match attempt with
    | .success => (some .client, [Msg.authenticatedSuccessfully])
    | .needsMfa .ok => (some .client, [Msg.authenticatedSuccessfully])
    | .needsMfa .http429 => (some .exit1, [Msg.rateLimitedDuringMfa])
    | .needsMfa .http401or403 =>
      let (o, ms) := init_api_loop rest
      (o, Msg.invalidMfaCode :: ms)
    | .needsMfa .httpOther => (some .exit1, [])
    | .needsMfa .garthOther =>
      let (o, ms) := init_api_loop rest
      (o, Msg.mfaFailed :: ms)
    | .authError =>
      let (o, ms) := init_api_loop rest
      (o, Msg.invalidCredentials :: ms)
    | .connError => (some .failure, [Msg.connectionErrorDuringLogin])
    | .interrupted => (some .failure, [])

/-- Function `init_api`: try the stored tokens, then run the credential loop. -/
def init_api (restore : TokenRestore) (script : List LoginAttempt) :
    Option SessionOutcome × List Msg :=
  match restore with
  | .ok => (some .client, [Msg.authenticatedWithStoredTokens])
  | .err => init_api_loop script
  | .interrupted => (some .interruptProp, [])

/-- Whether the sync phase of a run completed or was manually interrupted
(the `except KeyboardInterrupt` handler of the `__main__` block). -/
inductive RunEnd where
  | completed
  | interruptedDuringSync
deriving DecidableEq

/-- Exit code of the whole process as a function of the session-acquisition
scenario and how the sync phase ends: `main` exits 1 when `init_api` returns
`None`; a `sys.exit(1)` inside `init_api` ends the process with 1; a
`KeyboardInterrupt` (from the restore step or during sync) is caught by the
`__main__` handler, which prints and falls off the end, exiting 0; normal
completion exits 0.  `none` means the credential loop is still running. -/
def process_exit_code (restore : TokenRestore) (script : List LoginAttempt)
    (runEnd : RunEnd) : Option Nat :=
  match (init_api restore script).1 with
  | some .client =>
    match runEnd with
    | .completed => some 0
    | .interruptedDuringSync => some 0
  | some .failure => some 1
  | some .exit1 => some 1
  | some .interruptProp => some 0
  | none => none

/-- The file writes of a trace, in order. -/
def writesOf (evs : List Ev) : List (FPath × Json) :=
  evs.filterMap fun e => match e with | .write p v => some (p, v) | _ => none

/-- The remote invocations of a trace, in order. -/
def invokesOf (evs : List Ev) : List ApiMethod :=
  evs.filterMap fun e => match e with | .invoke m => some m | _ => none

/-- The sleep durations of a trace, in order. -/
def sleepsOf (evs : List Ev) : List Nat :=
  evs.filterMap fun e => match e with | .sleepSecs s => some s | _ => none

/-- The printed messages of a trace, in order. -/
def msgsOf (evs : List Ev) : List Msg :=
  evs.filterMap fun e => match e with | .msg m => some m | _ => none

/-- How many writes a trace makes to one path. -/
def writeCount (evs : List Ev) (p : FPath) : Nat :=
  ((writesOf evs).filter fun q => decide (q.1 = p)).length

/-- The outcomes `api_call` treats as a rate-limit signal: a
`GarminConnectTooManyRequestsError`, or a `GarthHTTPError` whose text
contains "429". -/
def isRateLimited (o : CallOutcome) : Prop :=
  o = CallOutcome.tooManyRequests ∨ o = CallOutcome.garthHTTP true

instance (o : CallOutcome) : Decidable (isRateLimited o) := by
  unfold isRateLimited
  infer_instance

/-- File-tree extension: every file of `a` is still present in `b`.  Every
step of the orchestrator only adds files. -/
def FsLe (a b : FS) : Prop :=
  ∀ p, fsExists a p = true → fsExists b p = true

/-- A daily metric of day `d` is covered in `fs` under `api`: the file
already exists, or fetching it returns absent.  In either case re-running the
metric writes nothing. -/
def metricCovered (api : Api) (fs : FS) (d : Int) (filename : String)
    (meth : Int → ApiMethod) : Prop :=
  fsExists fs (FPath.daily d filename) = true ∨ (api_call api (meth d)).1 = none

/-- All thirteen daily metrics of day `d` are covered in `fs` under `api`. -/
def dayCovered (api : Api) (fs : FS) (d : Int) : Prop :=
  (∀ filename meth, (filename, meth) ∈ daily_calls →
    metricCovered api fs d filename meth) ∧
  (fsExists fs (FPath.daily d "body_battery.json") = true ∨
    (api_call api (ApiMethod.get_body_battery d d)).1 = none)

/-- Whether a method is a paginated activity-list request
(`api.get_activities`). -/
def isActivitiesListReq : ApiMethod → Bool
  | .get_activities _ _ => true
  | _ => false

/-- The file paths the orchestrator rewrites unconditionally on every run
(no cache check): body composition, weigh-ins, weekly steps and stress,
user profile, devices, and personal records. -/
def unconditionalPaths : List FPath :=
  [FPath.bodyComp "body_comp.json", FPath.bodyComp "weigh_ins.json",
   FPath.weekly "steps.json", FPath.weekly "stress.json",
   FPath.profile "user_profile.json", FPath.profile "devices.json",
   FPath.personalRecords]

/-- Per-path write discipline of the daily sync: at most one write to the
path, a write happens only when the file was absent and leaves it present,
and an existing file stays present. -/
def WriteSpec (p : FPath) (fsIn fsOut : FS) (evs : List Ev) : Prop :=
  writeCount evs p ≤ 1 ∧
  (1 ≤ writeCount evs p → fsExists fsIn p = false ∧ fsExists fsOut p = true) ∧
  (fsExists fsIn p = true → fsExists fsOut p = true)

/-- The (day, file name) a daily-metric method call belongs to, when it is
one: each of the twelve single-date methods at date `d` maps to `d` and its
file name, and `get_body_battery d d` maps to `body_battery.json` of `d`. -/
def methodKey : ApiMethod → Option (Int × String)
  | .get_user_summary d => some (d, "summary.json")
  | .get_heart_rates d => some (d, "heart_rate.json")
  | .get_sleep_data d => some (d, "sleep.json")
  | .get_all_day_stress d => some (d, "stress.json")
  | .get_respiration_data d => some (d, "respiration.json")
  | .get_spo2_data d => some (d, "spo2.json")
  | .get_hrv_data d => some (d, "hrv.json")
  | .get_training_readiness d => some (d, "training_readiness.json")
  | .get_hydration_data d => some (d, "hydration.json")
  | .get_intensity_minutes_data d => some (d, "intensity_minutes.json")
  | .get_floors d => some (d, "floors.json")
  | .get_steps_data d => some (d, "steps_detail.json")
  | .get_body_battery s e => if s = e then some (s, "body_battery.json") else none
  | _ => none

theorem fsLookup_cons (q : FPath) (v : Json) (fs : FS) (p : FPath) :
    fsLookup ((q, v) :: fs) p = if q = p then some v else fsLookup fs p := rfl

theorem fsExists_cons_self (fs : FS) (p : FPath) (v : Json) :
    fsExists ((p, v) :: fs) p = true := by
  simp [fsExists, fsLookup]

theorem fsExists_cons_of (q : FPath) (v : Json) (fs : FS) (p : FPath)
    (h : fsExists fs p = true) : fsExists ((q, v) :: fs) p = true := by
  simp only [fsExists, fsLookup_cons]
  split
  · simp
  · exact h

/-- C3: mode selection in `main` is determined once at start: when
`load_sync_state` returns a date `x`, the computed sync range starts exactly
at `x` (and ends at `today`); when it returns `None`, the range starts exactly
`HISTORY_DAYS = 365` days before `today`. -/
theorem C3_mode_selection (fs : FS) (today x : Int) :
    (load_sync_state fs = some x →
      computed_start_date (load_sync_state fs) today = x) ∧
    (load_sync_state fs = none →
      computed_start_date (load_sync_state fs) today = today - HISTORY_DAYS ∧
      HISTORY_DAYS = 365) := by
  constructor
  · intro h
    rw [h]
    rfl
  · intro h
    rw [h]
    exact ⟨rfl, rfl⟩

/-- Witness for C3 at one concrete state file and one empty tree. -/
theorem C3_mode_selection_witness :
    computed_start_date (load_sync_state [(FPath.syncState, sync_state_json 5)]) 10 = 5 ∧
    computed_start_date (load_sync_state []) 10 = 10 - HISTORY_DAYS :=
  ⟨(C3_mode_selection [(FPath.syncState, sync_state_json 5)] 10 5).1 (by decide),
   ((C3_mode_selection [] 10 0).2 (by decide)).1⟩

/-- C10: `load_sync_state` returns `None` not only when the state file is
missing but also when the file holds a JSON object without a truthy
`last_sync_date` field, and in that case `main` selects the initial mode with
the full 365-day range. -/
theorem C10_falsy_state_selects_initial (fs : FS) (today : Int)
    (fields : List (String × Json)) :
    (fsLookup fs FPath.syncState = none → load_sync_state fs = none) ∧
    (fsLookup fs FPath.syncState = some (Json.obj fields) →
      truthy (jGet (Json.obj fields) "last_sync_date") = false →
      load_sync_state fs = none ∧
      computed_start_date (load_sync_state fs) today = today - HISTORY_DAYS) := by
  constructor
  · intro h
    unfold load_sync_state
    rw [h]
  · intro h htr
    have hl : load_sync_state fs = none := by
      unfold load_sync_state
      rw [h]
      simp [htr]
    exact ⟨hl, by rw [hl]; rfl⟩

/-- Witness for C10 at a missing file and at a state file whose object lacks
the field. -/
theorem C10_falsy_state_witness :
    load_sync_state [] = none ∧
    load_sync_state [(FPath.syncState, Json.obj [("other", Json.num 1)])] = none :=
  ⟨(C10_falsy_state_selects_initial [] 0 []).1 (by decide),
   ((C10_falsy_state_selects_initial [(FPath.syncState, Json.obj [("other", Json.num 1)])] 0
      [("other", Json.num 1)]).2 (by decide) (by decide)).1⟩


/-- C2 counterexample: the claim says every non-rate-limit error makes
`api_call` report and return absent; but an operation that raises a
`GarthHTTPError` without "429" in its text returns absent immediately with no
message printed at all, so no report occurs. -/
theorem C2_counterexample_silent_other_error :
    (api_call (fun _ _ => CallOutcome.garthHTTP false) ApiMethod.get_user_profile).1 = none ∧
    msgsOf (api_call (fun _ _ => CallOutcome.garthHTTP false) ApiMethod.get_user_profile).2
      = [] := by decide

/-- C2 (amended): on a rate-limit error `api_call` waits
`RETRY_BACKOFF * attempt_number` seconds (attempt number starting at 1) and
retries up to 3 attempts; after an error raised twice then a success it
returns the success value after exactly the two increasing delays; after 3
rate-limited attempts it reports and returns absent with nothing written; any
other error returns absent immediately with no retry, with a warning reported
for a generic error but with no message for a non-429 `GarthHTTPError`.
`api_call` is a total function into `Option`, so no exception reaches its
caller. -/
theorem C2_api_call_retry_contract (api : Api) (m : ApiMethod) (v : Json) :
    (isRateLimited (api m 0) → isRateLimited (api m 1) → api m 2 = CallOutcome.ok v →
      (api_call api m).1 = some v ∧
      sleepsOf (api_call api m).2 = [RETRY_BACKOFF * 1, RETRY_BACKOFF * 2] ∧
      RETRY_BACKOFF * 1 < RETRY_BACKOFF * 2) ∧
    ((∀ n, n < MAX_RETRIES → isRateLimited (api m n)) →
      (api_call api m).1 = none ∧
      (invokesOf (api_call api m).2).length = MAX_RETRIES ∧
      writesOf (api_call api m).2 = [] ∧
      Msg.givingUp ∈ msgsOf (api_call api m).2) ∧
    (api m 0 = CallOutcome.otherError →
      api_call api m = (none, [Ev.invoke m, Ev.msg Msg.warning])) ∧
    (api m 0 = CallOutcome.garthHTTP false →
      api_call api m = (none, [Ev.invoke m])) := by
  have hmr : MAX_RETRIES = 2 + 1 := rfl
  refine ⟨?_, ?_, ?_, ?_⟩
  · intro h0 h1 h2
    unfold api_call
    rw [hmr]
    rcases h0 with h0 | h0 <;> rcases h1 with h1 | h1 <;>
      simp [api_call_from, h0, h1, h2, sleepsOf, RETRY_BACKOFF]
  · intro hall
    have h0 := hall 0 (by decide)
    have h1 := hall 1 (by decide)
    have h2 := hall 2 (by decide)
    unfold api_call
    rw [hmr]
    rcases h0 with h0 | h0 <;> rcases h1 with h1 | h1 <;> rcases h2 with h2 | h2 <;>
      simp [api_call_from, h0, h1, h2, invokesOf, writesOf, msgsOf]
  · intro h0
    unfold api_call
    rw [hmr]
    simp [api_call_from, h0]
  · intro h0
    unfold api_call
    rw [hmr]
    simp [api_call_from, h0]

/-- Witness for C2 (amended) at four concrete operations. -/
theorem C2_api_call_retry_witness :
    (api_call (fun _ n => if n < 2 then CallOutcome.tooManyRequests
        else CallOutcome.ok (Json.num 1)) ApiMethod.get_devices).1 = some (Json.num 1) ∧
    (api_call (fun _ _ => CallOutcome.tooManyRequests) ApiMethod.get_devices).1 = none ∧
    api_call (fun _ _ => CallOutcome.otherError) ApiMethod.get_devices
      = (none, [Ev.invoke ApiMethod.get_devices, Ev.msg Msg.warning]) ∧
    api_call (fun _ _ => CallOutcome.garthHTTP false) ApiMethod.get_devices
      = (none, [Ev.invoke ApiMethod.get_devices]) :=
  ⟨((C2_api_call_retry_contract
      (fun _ n => if n < 2 then CallOutcome.tooManyRequests else CallOutcome.ok (Json.num 1))
      ApiMethod.get_devices (Json.num 1)).1 (by decide) (by decide) (by decide)).1,
   (((C2_api_call_retry_contract (fun _ _ => CallOutcome.tooManyRequests)
      ApiMethod.get_devices Json.null).2.1 (fun n _ => by left; rfl)).1),
   ((C2_api_call_retry_contract (fun _ _ => CallOutcome.otherError)
      ApiMethod.get_devices Json.null).2.2.1 (by decide)),
   ((C2_api_call_retry_contract (fun _ _ => CallOutcome.garthHTTP false)
      ApiMethod.get_devices Json.null).2.2.2 (by decide))⟩

/-- C7 counterexample: the claim says any MFA error other than rate-limit and
invalid-code terminates the process; but a `GarthException` that is not a
`GarthHTTPError` during MFA resume prints "MFA failed. Try again." and
re-prompts from the top of the loop, and here the process goes on to obtain a
client instead of terminating. -/
theorem C7_counterexample_garth_exception_reprompts :
    init_api TokenRestore.err
      [LoginAttempt.needsMfa MfaResume.garthOther, LoginAttempt.success]
      = (some SessionOutcome.client,
         [Msg.mfaFailed, Msg.authenticatedSuccessfully]) := by decide

/-- C7 (amended): during MFA resume, a rate-limit (429) response reports and
terminates the process with exit code 1; an invalid-code (401/403) response
reports and re-prompts for credentials from the top of the loop; any other
`GarthHTTPError` terminates the process (without a message); and a
non-HTTP `GarthException` reports and re-prompts from the top rather than
terminating. -/
theorem C7_mfa_resume_behaviour (rest : List LoginAttempt) :
    init_api_loop (LoginAttempt.needsMfa MfaResume.http429 :: rest)
      = (some SessionOutcome.exit1, [Msg.rateLimitedDuringMfa]) ∧
    init_api_loop (LoginAttempt.needsMfa MfaResume.http401or403 :: rest)
      = ((init_api_loop rest).1, Msg.invalidMfaCode :: (init_api_loop rest).2) ∧
    init_api_loop (LoginAttempt.needsMfa MfaResume.httpOther :: rest)
      = (some SessionOutcome.exit1, []) ∧
    init_api_loop (LoginAttempt.needsMfa MfaResume.garthOther :: rest)
      = ((init_api_loop rest).1, Msg.mfaFailed :: (init_api_loop rest).2) := by
  refine ⟨rfl, ?_, rfl, ?_⟩ <;>
    simp [init_api_loop]

/-- C8 counterexample: the claim says every manually interrupted run exits
with code 0; but a `KeyboardInterrupt` during the credential prompt loop is
caught inside `init_api` and returned as `None`, so `main` prints
"Failed to authenticate." and exits with code 1. -/
theorem C8_counterexample_interrupt_at_prompt_exits_one :
    process_exit_code TokenRestore.err [LoginAttempt.interrupted] RunEnd.completed
      = some 1 := by decide

/-- C8 (amended): the process exits 0 on normal completion, on a manual
interrupt during the token-restore step, and on a manual interrupt during the
sync phase (both reach the top-level handler); it exits 1 when `init_api`
returns `None` — which covers outright authentication failure, connection
errors, and also a manual interrupt at the credential prompts — and when a
fatal MFA error calls `sys.exit(1)`. -/
theorem C8_exit_codes (restore : TokenRestore) (script : List LoginAttempt)
    (runEnd : RunEnd) :
    ((init_api restore script).1 = some SessionOutcome.client →
      process_exit_code restore script runEnd = some 0) ∧
    (restore = TokenRestore.interrupted →
      process_exit_code restore script runEnd = some 0) ∧
    ((init_api restore script).1 = some SessionOutcome.failure →
      process_exit_code restore script runEnd = some 1) ∧
    ((init_api restore script).1 = some SessionOutcome.exit1 →
      process_exit_code restore script runEnd = some 1) := by
  refine ⟨?_, ?_, ?_, ?_⟩ <;> intro h
  · unfold process_exit_code
    rw [h]
    cases runEnd <;> rfl
  · subst h
    cases runEnd <;> rfl
  · unfold process_exit_code
    rw [h]
  · unfold process_exit_code
    rw [h]

/-- Witness for C8 (amended) at four concrete scenarios: a completed run, an
interrupt at token restore, a connection failure at login, and a fatal MFA
rate limit. -/
theorem C8_exit_codes_witness :
    process_exit_code TokenRestore.ok [] RunEnd.completed = some 0 ∧
    process_exit_code TokenRestore.interrupted [] RunEnd.completed = some 0 ∧
    process_exit_code TokenRestore.err [LoginAttempt.connError] RunEnd.completed = some 1 ∧
    process_exit_code TokenRestore.err [LoginAttempt.needsMfa MfaResume.http429]
      RunEnd.completed = some 1 :=
  ⟨(C8_exit_codes TokenRestore.ok [] RunEnd.completed).1 (by decide),
   (C8_exit_codes TokenRestore.interrupted [] RunEnd.completed).2.1 (by decide),
   (C8_exit_codes TokenRestore.err [LoginAttempt.connError] RunEnd.completed).2.2.1 (by decide),
   (C8_exit_codes TokenRestore.err [LoginAttempt.needsMfa MfaResume.http429]
      RunEnd.completed).2.2.2 (by decide)⟩

theorem api_call_from_no_writes (api : Api) (m : ApiMethod) (attempt remaining : Nat) :
    writesOf (api_call_from api m attempt remaining).2 = [] := by
  induction remaining generalizing attempt with
  | zero => simp [api_call_from, writesOf]
  | succ n ih =>
    unfold api_call_from
    cases h : api m attempt with
    | ok v => simp [writesOf]
    | tooManyRequests =>
      rcases hrec : api_call_from api m (attempt + 1) n with ⟨res, evs⟩
      have hn := ih (attempt + 1)
      rw [hrec] at hn
      simp [writesOf, hrec]
      simpa [writesOf] using hn
    | garthHTTP b =>
      cases b with
      | true =>
        rcases hrec : api_call_from api m (attempt + 1) n with ⟨res, evs⟩
        have hn := ih (attempt + 1)
        rw [hrec] at hn
        simp [writesOf, hrec]
        simpa [writesOf] using hn
      | false => simp [writesOf]
    | otherError => simp [writesOf]

theorem api_call_no_writes (api : Api) (m : ApiMethod) :
    writesOf (api_call api m).2 = [] :=
  api_call_from_no_writes api m 0 MAX_RETRIES

theorem api_call_from_invokes (api : Api) (m : ApiMethod) (attempt remaining : Nat) :
    ∀ m2 ∈ invokesOf (api_call_from api m attempt remaining).2, m2 = m := by
  induction remaining generalizing attempt with
  | zero => simp [api_call_from, invokesOf]
  | succ n ih =>
    unfold api_call_from
    cases h : api m attempt with
    | ok v => simp [invokesOf]
    | tooManyRequests =>
      rcases hrec : api_call_from api m (attempt + 1) n with ⟨res, evs⟩
      have hn := ih (attempt + 1)
      rw [hrec] at hn
      simp only [invokesOf] at hn ⊢
      simpa using hn
    | garthHTTP b =>
      cases b with
      | true =>
        rcases hrec : api_call_from api m (attempt + 1) n with ⟨res, evs⟩
        have hn := ih (attempt + 1)
        rw [hrec] at hn
        simp only [invokesOf] at hn ⊢
        simpa using hn
      | false => simp [invokesOf]
    | otherError => simp [invokesOf]

theorem api_call_invokes (api : Api) (m : ApiMethod) :
    ∀ m2 ∈ invokesOf (api_call api m).2, m2 = m :=
  api_call_from_invokes api m 0 MAX_RETRIES

/-- C6: in both the full and the incremental activity path, an activity with
a truthy id that is not already cached always ends with exactly one file
written at `activities/<id>.json`, whose content is the fetched detail when
the detail fetch succeeds and the original summary record itself when it
returns absent (`Option.getD` of the fetch result), so the cached file equals
the summary on failure — never an error marker — and no such activity is left
without a file. -/
theorem C6_fallback_to_summary (api : Api) (activity : Json) (fs : FS) (total : Nat)
    (htr : truthy (jGet activity "activityId") = true)
    (hnc : fsExists fs (FPath.activity (jGet activity "activityId")) = false) :
    fsLookup (processActivityFull api activity fs total).1
        (FPath.activity (jGet activity "activityId"))
      = some ((api_call api (ApiMethod.get_activity (jGet activity "activityId"))).1.getD
          activity) ∧
    writesOf (processActivityFull api activity fs total).2.2
      = [(FPath.activity (jGet activity "activityId"),
          (api_call api (ApiMethod.get_activity (jGet activity "activityId"))).1.getD
            activity)] ∧
    fsLookup (processActivityIncr api activity fs).1
        (FPath.activity (jGet activity "activityId"))
      = some ((api_call api (ApiMethod.get_activity (jGet activity "activityId"))).1.getD
          activity) ∧
    writesOf (processActivityIncr api activity fs).2
      = [(FPath.activity (jGet activity "activityId"),
          (api_call api (ApiMethod.get_activity (jGet activity "activityId"))).1.getD
            activity)] := by
  unfold processActivityFull processActivityIncr
  rcases hc : api_call api (ApiMethod.get_activity (jGet activity "activityId"))
    with ⟨detail, cevs⟩
  have h0 := api_call_no_writes api (ApiMethod.get_activity (jGet activity "activityId"))
  rw [hc] at h0
  simp only [writesOf, List.filterMap_eq_nil_iff] at h0
  cases detail <;>
    simp [htr, hnc, save_json, writesOf, fsLookup, hc, h0] <;>
    exact h0

/-- Witness for C6 at a concrete uncached activity whose detail fetch always
fails. -/
theorem C6_fallback_witness :
    fsLookup
      (processActivityFull (fun _ _ => CallOutcome.otherError)
        (Json.obj [("activityId", Json.num 42)]) [] 0).1
      (FPath.activity (jGet (Json.obj [("activityId", Json.num 42)]) "activityId"))
      = some ((api_call (fun _ _ => CallOutcome.otherError)
          (ApiMethod.get_activity
            (jGet (Json.obj [("activityId", Json.num 42)]) "activityId"))).1.getD
          (Json.obj [("activityId", Json.num 42)])) :=
  (C6_fallback_to_summary (fun _ _ => CallOutcome.otherError)
    (Json.obj [("activityId", Json.num 42)]) [] 0 (by decide) (by decide)).1

/-- C9: in both activity sync paths, a record whose `activityId` is missing
or falsy is skipped entirely: the step returns the file tree and counter
unchanged with an empty trace, so no detail fetch is attempted and no file is
written for it. -/
theorem C9_falsy_id_skipped (api : Api) (activity : Json) (fs : FS) (total : Nat)
    (h : truthy (jGet activity "activityId") = false) :
    processActivityFull api activity fs total = (fs, total, []) ∧
    processActivityIncr api activity fs = (fs, []) := by
  unfold processActivityFull processActivityIncr
  simp [h]

/-- Witness for C9 at a record with no `activityId` field. -/
theorem C9_falsy_id_witness :
    processActivityFull (fun _ _ => CallOutcome.ok Json.null) (Json.obj []) [] 0
      = ([], 0, []) :=
  (C9_falsy_id_skipped (fun _ _ => CallOutcome.ok Json.null) (Json.obj []) [] 0
    (by decide)).1

theorem invokesOf_append (e1 e2 : List Ev) :
    invokesOf (e1 ++ e2) = invokesOf e1 ++ invokesOf e2 := by
  simp [invokesOf]

theorem writesOf_append (e1 e2 : List Ev) :
    writesOf (e1 ++ e2) = writesOf e1 ++ writesOf e2 := by
  simp [writesOf]

theorem msgsOf_append (e1 e2 : List Ev) :
    msgsOf (e1 ++ e2) = msgsOf e1 ++ msgsOf e2 := by
  simp [msgsOf]

theorem api_call_of_ok (api : Api) (m : ApiMethod) (v : Json)
    (h : api m 0 = CallOutcome.ok v) :
    api_call api m = (some v, [Ev.invoke m]) := by
  have hmr : MAX_RETRIES = 2 + 1 := rfl
  unfold api_call
  rw [hmr]
  simp [api_call_from, h]


theorem syncDailyMetric_cached (api : Api) (d : Int) (filename : String)
    (meth : Int → ApiMethod) (fs : FS)
    (h : fsExists fs (FPath.daily d filename) = true) :
    syncDailyMetric api d filename meth fs = (fs, []) := by
  unfold syncDailyMetric
  simp [h]

theorem syncDailyMetric_fetch_some (api : Api) (d : Int) (filename : String)
    (meth : Int → ApiMethod) (fs : FS) (v : Json)
    (h : fsExists fs (FPath.daily d filename) = false)
    (hc : (api_call api (meth d)).1 = some v) :
    syncDailyMetric api d filename meth fs =
      ((FPath.daily d filename, v) :: fs,
       (api_call api (meth d)).2 ++
         [Ev.write (FPath.daily d filename) v, Ev.sleepSecs API_DELAY]) := by
  unfold syncDailyMetric
  rcases hp : api_call api (meth d) with ⟨r, cevs⟩
  rw [hp] at hc
  simp only at hc
  subst hc
  simp [h, hp, save_json]

theorem syncDailyMetric_fetch_none (api : Api) (d : Int) (filename : String)
    (meth : Int → ApiMethod) (fs : FS)
    (h : fsExists fs (FPath.daily d filename) = false)
    (hc : (api_call api (meth d)).1 = none) :
    syncDailyMetric api d filename meth fs =
      (fs, (api_call api (meth d)).2 ++ [Ev.sleepSecs API_DELAY]) := by
  unfold syncDailyMetric
  rcases hp : api_call api (meth d) with ⟨r, cevs⟩
  rw [hp] at hc
  simp only at hc
  subst hc
  simp [h, hp]

theorem syncBodyBattery_cached (api : Api) (d : Int) (fs : FS)
    (h : fsExists fs (FPath.daily d "body_battery.json") = true) :
    syncBodyBattery api d fs = (fs, []) := by
  unfold syncBodyBattery
  simp [h]

theorem syncBodyBattery_fetch_some (api : Api) (d : Int) (fs : FS) (v : Json)
    (h : fsExists fs (FPath.daily d "body_battery.json") = false)
    (hc : (api_call api (ApiMethod.get_body_battery d d)).1 = some v) :
    syncBodyBattery api d fs =
      ((FPath.daily d "body_battery.json", v) :: fs,
       (api_call api (ApiMethod.get_body_battery d d)).2 ++
         [Ev.write (FPath.daily d "body_battery.json") v, Ev.sleepSecs API_DELAY]) := by
  unfold syncBodyBattery
  rcases hp : api_call api (ApiMethod.get_body_battery d d) with ⟨r, cevs⟩
  rw [hp] at hc
  simp only at hc
  subst hc
  simp [h, hp, save_json]

theorem syncBodyBattery_fetch_none (api : Api) (d : Int) (fs : FS)
    (h : fsExists fs (FPath.daily d "body_battery.json") = false)
    (hc : (api_call api (ApiMethod.get_body_battery d d)).1 = none) :
    syncBodyBattery api d fs =
      (fs, (api_call api (ApiMethod.get_body_battery d d)).2 ++ [Ev.sleepSecs API_DELAY]) := by
  unfold syncBodyBattery
  rcases hp : api_call api (ApiMethod.get_body_battery d d) with ⟨r, cevs⟩
  rw [hp] at hc
  simp only at hc
  subst hc
  simp [h, hp]

theorem syncDailyMetrics_cons (api : Api) (d : Int) (filename : String)
    (meth : Int → ApiMethod) (rest : List (String × (Int → ApiMethod))) (fs : FS) :
    syncDailyMetrics api d ((filename, meth) :: rest) fs =
      ((syncDailyMetrics api d rest (syncDailyMetric api d filename meth fs).1).1,
       (syncDailyMetric api d filename meth fs).2 ++
         (syncDailyMetrics api d rest (syncDailyMetric api d filename meth fs).1).2) := by
  rfl

theorem syncOneDay_eq (api : Api) (d : Int) (fs : FS) :
    syncOneDay api d fs =
      ((syncBodyBattery api d (syncDailyMetrics api d daily_calls fs).1).1,
       (syncDailyMetrics api d daily_calls fs).2 ++
         (syncBodyBattery api d (syncDailyMetrics api d daily_calls fs).1).2) := by
  rfl

theorem syncDaysCount_succ (api : Api) (current : Int) (n : Nat) (fs : FS) :
    syncDaysCount api current (n + 1) fs =
      ((syncDaysCount api (current + 1) n (syncOneDay api current fs).1).1,
       (syncOneDay api current fs).2 ++
         (syncDaysCount api (current + 1) n (syncOneDay api current fs).1).2) := by
  rfl

theorem processActivityFull_falsy (api : Api) (a : Json) (fs : FS) (t : Nat)
    (h : truthy (jGet a "activityId") = false) :
    processActivityFull api a fs t = (fs, t, []) := by
  unfold processActivityFull
  simp [h]

theorem processActivityFull_cached (api : Api) (a : Json) (fs : FS) (t : Nat)
    (htr : truthy (jGet a "activityId") = true)
    (hex : fsExists fs (FPath.activity (jGet a "activityId")) = true) :
    processActivityFull api a fs t = (fs, t + 1, []) := by
  unfold processActivityFull
  simp [htr, hex]

theorem processActivityFull_fetch (api : Api) (a : Json) (fs : FS) (t : Nat)
    (htr : truthy (jGet a "activityId") = true)
    (hex : fsExists fs (FPath.activity (jGet a "activityId")) = false) :
    processActivityFull api a fs t =
      ((FPath.activity (jGet a "activityId"),
        (api_call api (ApiMethod.get_activity (jGet a "activityId"))).1.getD a) :: fs,
       t + 1,
       (api_call api (ApiMethod.get_activity (jGet a "activityId"))).2 ++
         [Ev.write (FPath.activity (jGet a "activityId"))
            ((api_call api (ApiMethod.get_activity (jGet a "activityId"))).1.getD a),
          Ev.sleepSecs API_DELAY]) := by
  unfold processActivityFull
  rcases hp : api_call api (ApiMethod.get_activity (jGet a "activityId")) with ⟨r, cevs⟩
  cases r <;> simp [htr, hex, hp, save_json]

theorem processActivityIncr_falsy (api : Api) (a : Json) (fs : FS)
    (h : truthy (jGet a "activityId") = false) :
    processActivityIncr api a fs = (fs, []) := by
  unfold processActivityIncr
  simp [h]

theorem processActivityIncr_cached (api : Api) (a : Json) (fs : FS)
    (htr : truthy (jGet a "activityId") = true)
    (hex : fsExists fs (FPath.activity (jGet a "activityId")) = true) :
    processActivityIncr api a fs = (fs, []) := by
  unfold processActivityIncr
  simp [htr, hex]

theorem processActivityIncr_fetch (api : Api) (a : Json) (fs : FS)
    (htr : truthy (jGet a "activityId") = true)
    (hex : fsExists fs (FPath.activity (jGet a "activityId")) = false) :
    processActivityIncr api a fs =
      ((FPath.activity (jGet a "activityId"),
        (api_call api (ApiMethod.get_activity (jGet a "activityId"))).1.getD a) :: fs,
       (api_call api (ApiMethod.get_activity (jGet a "activityId"))).2 ++
         [Ev.write (FPath.activity (jGet a "activityId"))
            ((api_call api (ApiMethod.get_activity (jGet a "activityId"))).1.getD a),
          Ev.sleepSecs API_DELAY]) := by
  unfold processActivityIncr
  rcases hp : api_call api (ApiMethod.get_activity (jGet a "activityId")) with ⟨r, cevs⟩
  cases r <;> simp [htr, hex, hp, save_json]

theorem processActivityFull_invokes (api : Api) (a : Json) (fs : FS) (t : Nat) :
    ∀ m ∈ invokesOf (processActivityFull api a fs t).2.2,
      m = ApiMethod.get_activity (jGet a "activityId") := by
  intro m hm
  by_cases htr : truthy (jGet a "activityId") = true
  · by_cases hex : fsExists fs (FPath.activity (jGet a "activityId")) = true
    · rw [processActivityFull_cached api a fs t htr hex] at hm
      simp [invokesOf] at hm
    · rw [processActivityFull_fetch api a fs t htr (by simpa using hex)] at hm
      rw [invokesOf_append] at hm
      rcases List.mem_append.mp hm with hm | hm
      · exact api_call_invokes api _ m hm
      · simp [invokesOf] at hm
  · rw [processActivityFull_falsy api a fs t (by simpa using htr)] at hm
    simp [invokesOf] at hm

theorem processBatchFull_no_list_reqs (api : Api) (xs : List Json) :
    ∀ fs t, ∀ m ∈ invokesOf (processBatchFull api xs fs t).2.2,
      isActivitiesListReq m = false := by
  induction xs with
  | nil =>
    intro fs t m hm
    simp [processBatchFull, invokesOf] at hm
  | cons a rest ih =>
    intro fs t m hm
    simp only [processBatchFull] at hm
    rw [invokesOf_append] at hm
    rcases List.mem_append.mp hm with hm | hm
    · rw [processActivityFull_invokes api a fs t m hm]
      rfl
    · exact ih _ _ m hm

theorem syncActivitiesPages_stop_none (api : Api) (fuel start limit total : Nat) (fs : FS)
    (hc : (api_call api (ApiMethod.get_activities start limit)).1 = none) :
    syncActivitiesPages api (fuel + 1) start limit total fs
      = (fs, total, (api_call api (ApiMethod.get_activities start limit)).2) := by
  unfold syncActivitiesPages
  rcases hp : api_call api (ApiMethod.get_activities start limit) with ⟨r, cevs⟩
  rw [hp] at hc
  simp only at hc
  subst hc
  simp [hp]

theorem syncActivitiesPages_stop_falsy (api : Api) (fuel start limit total : Nat) (fs : FS)
    (b : Json)
    (hc : (api_call api (ApiMethod.get_activities start limit)).1 = some b)
    (htr : truthy b = false) :
    syncActivitiesPages api (fuel + 1) start limit total fs
      = (fs, total, (api_call api (ApiMethod.get_activities start limit)).2) := by
  unfold syncActivitiesPages
  rcases hp : api_call api (ApiMethod.get_activities start limit) with ⟨r, cevs⟩
  rw [hp] at hc
  simp only at hc
  subst hc
  simp [hp, htr]

theorem syncActivitiesPages_stop_short (api : Api) (fuel start limit total : Nat) (fs : FS)
    (b : Json)
    (hc : (api_call api (ApiMethod.get_activities start limit)).1 = some b)
    (htr : truthy b = true)
    (hshort : (jArr b).length < limit) :
    syncActivitiesPages api (fuel + 1) start limit total fs
      = ((processBatchFull api (jArr b) fs total).1,
         (processBatchFull api (jArr b) fs total).2.1,
         (api_call api (ApiMethod.get_activities start limit)).2 ++
           (processBatchFull api (jArr b) fs total).2.2) := by
  unfold syncActivitiesPages
  rcases hp : api_call api (ApiMethod.get_activities start limit) with ⟨r, cevs⟩
  rw [hp] at hc
  simp only at hc
  subst hc
  simp [hp, htr, hshort]

theorem syncActivitiesPages_advance (api : Api) (fuel start limit total : Nat) (fs : FS)
    (b : Json)
    (hc : (api_call api (ApiMethod.get_activities start limit)).1 = some b)
    (htr : truthy b = true)
    (hlong : ¬ (jArr b).length < limit) :
    syncActivitiesPages api (fuel + 1) start limit total fs
      = ((syncActivitiesPages api fuel (start + limit) limit
            (processBatchFull api (jArr b) fs total).2.1
            (processBatchFull api (jArr b) fs total).1).1,
         (syncActivitiesPages api fuel (start + limit) limit
            (processBatchFull api (jArr b) fs total).2.1
            (processBatchFull api (jArr b) fs total).1).2.1,
         (api_call api (ApiMethod.get_activities start limit)).2 ++
           (processBatchFull api (jArr b) fs total).2.2 ++
             Ev.sleepSecs API_DELAY ::
               (syncActivitiesPages api fuel (start + limit) limit
                  (processBatchFull api (jArr b) fs total).2.1
                  (processBatchFull api (jArr b) fs total).1).2.2) := by
  conv_lhs => unfold syncActivitiesPages
  rcases hp : api_call api (ApiMethod.get_activities start limit) with ⟨r, cevs⟩
  rw [hp] at hc
  simp only at hc
  subst hc
  simp [hp, htr, hlong]

theorem syncActivitiesPages_three (api : Api) (fs : FS) (extra : Nat)
    (b1 b2 b3 : List Json)
    (h1 : api (ApiMethod.get_activities 0 100) 0 = CallOutcome.ok (Json.arr b1))
    (hl1 : b1.length = 100)
    (h2 : api (ApiMethod.get_activities 100 100) 0 = CallOutcome.ok (Json.arr b2))
    (hl2 : b2.length = 100)
    (h3 : api (ApiMethod.get_activities 200 100) 0 = CallOutcome.ok (Json.arr b3))
    (hl3 : b3.length = 37) :
    syncActivitiesPages api (extra + 3) 0 100 0 fs =
      ((processBatchFull api b3
          (processBatchFull api b2 (processBatchFull api b1 fs 0).1
            (processBatchFull api b1 fs 0).2.1).1
          (processBatchFull api b2 (processBatchFull api b1 fs 0).1
            (processBatchFull api b1 fs 0).2.1).2.1).1,
       (processBatchFull api b3
          (processBatchFull api b2 (processBatchFull api b1 fs 0).1
            (processBatchFull api b1 fs 0).2.1).1
          (processBatchFull api b2 (processBatchFull api b1 fs 0).1
            (processBatchFull api b1 fs 0).2.1).2.1).2.1,
       Ev.invoke (ApiMethod.get_activities 0 100) ::
         ((processBatchFull api b1 fs 0).2.2 ++
           Ev.sleepSecs API_DELAY ::
             (Ev.invoke (ApiMethod.get_activities 100 100) ::
               ((processBatchFull api b2 (processBatchFull api b1 fs 0).1
                   (processBatchFull api b1 fs 0).2.1).2.2 ++
                 Ev.sleepSecs API_DELAY ::
                   (Ev.invoke (ApiMethod.get_activities 200 100) ::
                     (processBatchFull api b3
                        (processBatchFull api b2 (processBatchFull api b1 fs 0).1
                          (processBatchFull api b1 fs 0).2.1).1
                        (processBatchFull api b2 (processBatchFull api b1 fs 0).1
                          (processBatchFull api b1 fs 0).2.1).2.1).2.2))))) := by
  have hc1 := api_call_of_ok api (ApiMethod.get_activities 0 100) (Json.arr b1) h1
  have hc2 := api_call_of_ok api (ApiMethod.get_activities 100 100) (Json.arr b2) h2
  have hc3 := api_call_of_ok api (ApiMethod.get_activities 200 100) (Json.arr b3) h3
  have hb1 : b1 ≠ [] := by intro hh; rw [hh] at hl1; simp at hl1
  have hb2 : b2 ≠ [] := by intro hh; rw [hh] at hl2; simp at hl2
  have ht1 : truthy (Json.arr b1) = true := by simp [truthy, hb1]
  have ht2 : truthy (Json.arr b2) = true := by simp [truthy, hb2]
  have hg1 : ¬ (jArr (Json.arr b1)).length < 100 := by simp [jArr, hl1]
  have hg2 : ¬ (jArr (Json.arr b2)).length < 100 := by simp [jArr, hl2]
  rw [show extra + 3 = (extra + 2) + 1 from rfl,
    syncActivitiesPages_advance api (extra + 2) 0 100 0 fs (Json.arr b1)
      (by rw [hc1]) ht1 hg1]
  rw [show (0 : Nat) + 100 = 100 from rfl]
  rw [show extra + 2 = (extra + 1) + 1 from rfl,
    syncActivitiesPages_advance api (extra + 1) 100 100
      (processBatchFull api (jArr (Json.arr b1)) fs 0).2.1
      (processBatchFull api (jArr (Json.arr b1)) fs 0).1 (Json.arr b2)
      (by rw [hc2]) ht2 hg2]
  rw [show (100 : Nat) + 100 = 200 from rfl]
  rw [syncActivitiesPages_stop_short api extra 200 100
      (processBatchFull api (jArr (Json.arr b2))
        (processBatchFull api (jArr (Json.arr b1)) fs 0).1
        (processBatchFull api (jArr (Json.arr b1)) fs 0).2.1).2.1
      (processBatchFull api (jArr (Json.arr b2))
        (processBatchFull api (jArr (Json.arr b1)) fs 0).1
        (processBatchFull api (jArr (Json.arr b1)) fs 0).2.1).1 (Json.arr b3)
      (by rw [hc3]) (by simp [truthy, show b3 ≠ [] from by intro hh; rw [hh] at hl3; simp at hl3])
      (by simp [jArr, hl3])]
  simp [hc1, hc2, hc3, jArr]

theorem invokesOf_cons_invoke (m : ApiMethod) (l : List Ev) :
    invokesOf (Ev.invoke m :: l) = m :: invokesOf l := rfl

theorem invokesOf_cons_sleep (s : Nat) (l : List Ev) :
    invokesOf (Ev.sleepSecs s :: l) = invokesOf l := rfl

theorem invokesOf_cons_msg (m : Msg) (l : List Ev) :
    invokesOf (Ev.msg m :: l) = invokesOf l := rfl

theorem invokesOf_cons_write (p : FPath) (v : Json) (l : List Ev) :
    invokesOf (Ev.write p v :: l) = invokesOf l := rfl

theorem writesOf_cons_invoke (m : ApiMethod) (l : List Ev) :
    writesOf (Ev.invoke m :: l) = writesOf l := rfl

theorem writesOf_cons_sleep (s : Nat) (l : List Ev) :
    writesOf (Ev.sleepSecs s :: l) = writesOf l := rfl

theorem writesOf_cons_msg (m : Msg) (l : List Ev) :
    writesOf (Ev.msg m :: l) = writesOf l := rfl

theorem writesOf_cons_write (p : FPath) (v : Json) (l : List Ev) :
    writesOf (Ev.write p v :: l) = (p, v) :: writesOf l := rfl

theorem writesOf_nil : writesOf [] = [] := rfl

theorem invokesOf_nil : invokesOf [] = [] := rfl

/-- C5: the full-sync pagination loop starts at offset 0 with batch size 100,
advances the offset by the batch size after each full batch, and stops on a
batch shorter than the batch size: with a source returning batches of sizes
100, 100 and 37 it issues exactly the three list requests at offsets 0, 100
and 200 (in that order) and terminates — any fuel beyond three loop
iterations leaves the run unchanged. -/
theorem C5_pagination_three_batches (api : Api) (fs : FS) (extra : Nat)
    (b1 b2 b3 : List Json)
    (h1 : api (ApiMethod.get_activities 0 100) 0 = CallOutcome.ok (Json.arr b1))
    (hl1 : b1.length = 100)
    (h2 : api (ApiMethod.get_activities 100 100) 0 = CallOutcome.ok (Json.arr b2))
    (hl2 : b2.length = 100)
    (h3 : api (ApiMethod.get_activities 200 100) 0 = CallOutcome.ok (Json.arr b3))
    (hl3 : b3.length = 37) :
    ((invokesOf (sync_activities_full api (extra + 3) fs).2).filter isActivitiesListReq
      = [ApiMethod.get_activities 0 100, ApiMethod.get_activities 100 100,
         ApiMethod.get_activities 200 100]) ∧
    sync_activities_full api (extra + 3) fs = sync_activities_full api 3 fs := by
  have haux := syncActivitiesPages_three api fs extra b1 b2 b3 h1 hl1 h2 hl2 h3 hl3
  have haux0 := syncActivitiesPages_three api fs 0 b1 b2 b3 h1 hl1 h2 hl2 h3 hl3
  rw [show (0 : Nat) + 3 = 3 from rfl] at haux0
  have f1 : (invokesOf (processBatchFull api b1 fs 0).2.2).filter isActivitiesListReq
      = [] :=
    List.filter_eq_nil_iff.mpr fun m hm => by
      simp [processBatchFull_no_list_reqs api b1 fs 0 m hm]
  have f2 : (invokesOf (processBatchFull api b2 (processBatchFull api b1 fs 0).1
        (processBatchFull api b1 fs 0).2.1).2.2).filter isActivitiesListReq = [] :=
    List.filter_eq_nil_iff.mpr fun m hm => by
      simp [processBatchFull_no_list_reqs api b2 _ _ m hm]
  have f3 : (invokesOf (processBatchFull api b3
        (processBatchFull api b2 (processBatchFull api b1 fs 0).1
          (processBatchFull api b1 fs 0).2.1).1
        (processBatchFull api b2 (processBatchFull api b1 fs 0).1
          (processBatchFull api b1 fs 0).2.1).2.1).2.2).filter isActivitiesListReq = [] :=
    List.filter_eq_nil_iff.mpr fun m hm => by
      simp [processBatchFull_no_list_reqs api b3 _ _ m hm]
  constructor
  · unfold sync_activities_full
    rw [haux]
    simp [invokesOf_cons_invoke, invokesOf_cons_sleep, invokesOf_append,
      List.filter_append, isActivitiesListReq, f1, f2, f3]
  · unfold sync_activities_full
    rw [haux, haux0]

/-- Witness for C5 at a concrete paginated source returning batches of sizes
100, 100 and 37. -/
theorem C5_pagination_witness :
    (invokesOf (sync_activities_full (fun m _ =>
        match m with
        | ApiMethod.get_activities 0 100 =>
          CallOutcome.ok (Json.arr (List.replicate 100 (Json.obj [])))
        | ApiMethod.get_activities 100 100 =>
          CallOutcome.ok (Json.arr (List.replicate 100 (Json.obj [])))
        | ApiMethod.get_activities 200 100 =>
          CallOutcome.ok (Json.arr (List.replicate 37 (Json.obj [])))
        | _ => CallOutcome.otherError) 3 []).2).filter isActivitiesListReq
      = [ApiMethod.get_activities 0 100, ApiMethod.get_activities 100 100,
         ApiMethod.get_activities 200 100] :=
  (C5_pagination_three_batches (fun m _ =>
        match m with
        | ApiMethod.get_activities 0 100 =>
          CallOutcome.ok (Json.arr (List.replicate 100 (Json.obj [])))
        | ApiMethod.get_activities 100 100 =>
          CallOutcome.ok (Json.arr (List.replicate 100 (Json.obj [])))
        | ApiMethod.get_activities 200 100 =>
          CallOutcome.ok (Json.arr (List.replicate 37 (Json.obj [])))
        | _ => CallOutcome.otherError) [] 0
      (List.replicate 100 (Json.obj [])) (List.replicate 100 (Json.obj []))
      (List.replicate 37 (Json.obj []))
      rfl (by simp) rfl (by simp) rfl (by simp)).1

theorem syncDailyMetric_mono (api : Api) (d : Int) (filename : String)
    (meth : Int → ApiMethod) (fs : FS) :
    FsLe fs (syncDailyMetric api d filename meth fs).1 := by
  intro p hp
  by_cases hex : fsExists fs (FPath.daily d filename) = true
  · rw [syncDailyMetric_cached api d filename meth fs hex]
    exact hp
  · cases hc : (api_call api (meth d)).1 with
    | none =>
      rw [syncDailyMetric_fetch_none api d filename meth fs (by simpa using hex) hc]
      exact hp
    | some v =>
      rw [syncDailyMetric_fetch_some api d filename meth fs v (by simpa using hex) hc]
      exact fsExists_cons_of _ _ _ _ hp

theorem syncBodyBattery_mono (api : Api) (d : Int) (fs : FS) :
    FsLe fs (syncBodyBattery api d fs).1 := by
  intro p hp
  by_cases hex : fsExists fs (FPath.daily d "body_battery.json") = true
  · rw [syncBodyBattery_cached api d fs hex]
    exact hp
  · cases hc : (api_call api (ApiMethod.get_body_battery d d)).1 with
    | none =>
      rw [syncBodyBattery_fetch_none api d fs (by simpa using hex) hc]
      exact hp
    | some v =>
      rw [syncBodyBattery_fetch_some api d fs v (by simpa using hex) hc]
      exact fsExists_cons_of _ _ _ _ hp

theorem syncDailyMetrics_mono (api : Api) (d : Int)
    (cs : List (String × (Int → ApiMethod))) : ∀ fs,
    FsLe fs (syncDailyMetrics api d cs fs).1 := by
  induction cs with
  | nil =>
    intro fs p hp
    simpa [syncDailyMetrics] using hp
  | cons c rest ih =>
    intro fs p hp
    rcases c with ⟨filename, meth⟩
    rw [syncDailyMetrics_cons]
    exact ih _ p (syncDailyMetric_mono api d filename meth fs p hp)

theorem syncOneDay_mono (api : Api) (d : Int) (fs : FS) :
    FsLe fs (syncOneDay api d fs).1 := by
  intro p hp
  conv_lhs => rw [syncOneDay_eq]
  dsimp only
  exact syncBodyBattery_mono api d _ p (syncDailyMetrics_mono api d daily_calls fs p hp)

theorem syncDaysCount_mono (api : Api) (n : Nat) : ∀ c fs,
    FsLe fs (syncDaysCount api c n fs).1 := by
  induction n with
  | zero =>
    intro c fs p hp
    simpa [syncDaysCount] using hp
  | succ n ih =>
    intro c fs p hp
    conv_lhs => rw [syncDaysCount_succ]
    dsimp only
    exact ih _ _ p (syncOneDay_mono api c fs p hp)

theorem sync_daily_data_mono (api : Api) (start finish : Int) (fs : FS) :
    FsLe fs (sync_daily_data api start finish fs).1 := by
  intro p hp
  unfold sync_daily_data
  exact syncDaysCount_mono api _ _ fs p hp

theorem mem_invokesOf (m : ApiMethod) (evs : List Ev) (h : Ev.invoke m ∈ evs) :
    m ∈ invokesOf evs :=
  List.mem_filterMap.mpr ⟨Ev.invoke m, h, rfl⟩

theorem daily_calls_methodKey (filename : String) (meth : Int → ApiMethod)
    (h : (filename, meth) ∈ daily_calls) :
    ∀ d, methodKey (meth d) = some (d, filename) := by
  simp only [daily_calls] at h
  fin_cases h <;> (intro d; rfl)

theorem syncDailyMetric_invoke_key (api : Api) (d : Int) (filename : String)
    (meth : Int → ApiMethod) (fs : FS) (m : ApiMethod)
    (hmem : Ev.invoke m ∈ (syncDailyMetric api d filename meth fs).2) :
    m = meth d ∧ fsExists fs (FPath.daily d filename) = false := by
  by_cases hex : fsExists fs (FPath.daily d filename) = true
  · rw [syncDailyMetric_cached api d filename meth fs hex] at hmem
    simp at hmem
  · have hex' : fsExists fs (FPath.daily d filename) = false := by simpa using hex
    refine ⟨?_, hex'⟩
    cases hc : (api_call api (meth d)).1 with
    | none =>
      rw [syncDailyMetric_fetch_none api d filename meth fs hex' hc] at hmem
      rcases List.mem_append.mp hmem with hmem | hmem
      · have := api_call_invokes api (meth d) m (mem_invokesOf m _ hmem)
        exact this
      · simp at hmem
    | some v =>
      rw [syncDailyMetric_fetch_some api d filename meth fs v hex' hc] at hmem
      rcases List.mem_append.mp hmem with hmem | hmem
      · exact api_call_invokes api (meth d) m (mem_invokesOf m _ hmem)
      · simp at hmem

theorem syncBodyBattery_invoke_key (api : Api) (d : Int) (fs : FS) (m : ApiMethod)
    (hmem : Ev.invoke m ∈ (syncBodyBattery api d fs).2) :
    m = ApiMethod.get_body_battery d d ∧
      fsExists fs (FPath.daily d "body_battery.json") = false := by
  by_cases hex : fsExists fs (FPath.daily d "body_battery.json") = true
  · rw [syncBodyBattery_cached api d fs hex] at hmem
    simp at hmem
  · have hex' : fsExists fs (FPath.daily d "body_battery.json") = false := by simpa using hex
    refine ⟨?_, hex'⟩
    cases hc : (api_call api (ApiMethod.get_body_battery d d)).1 with
    | none =>
      rw [syncBodyBattery_fetch_none api d fs hex' hc] at hmem
      rcases List.mem_append.mp hmem with hmem | hmem
      · exact api_call_invokes api _ m (mem_invokesOf m _ hmem)
      · simp at hmem
    | some v =>
      rw [syncBodyBattery_fetch_some api d fs v hex' hc] at hmem
      rcases List.mem_append.mp hmem with hmem | hmem
      · exact api_call_invokes api _ m (mem_invokesOf m _ hmem)
      · simp at hmem

theorem syncDailyMetrics_invoke_key (api : Api) (d : Int)
    (cs : List (String × (Int → ApiMethod)))
    (hgood : ∀ filename meth, (filename, meth) ∈ cs →
      ∀ e, methodKey (meth e) = some (e, filename)) :
    ∀ fs (m : ApiMethod) (dk : Int) (fk : String),
      methodKey m = some (dk, fk) →
      Ev.invoke m ∈ (syncDailyMetrics api d cs fs).2 →
      fsExists fs (FPath.daily dk fk) = false := by
  induction cs with
  | nil =>
    intro fs m dk fk _ hmem
    simp [syncDailyMetrics] at hmem
  | cons c rest ih =>
    intro fs m dk fk hkey hmem
    rcases c with ⟨filename, meth⟩
    rw [syncDailyMetrics_cons] at hmem
    rcases List.mem_append.mp hmem with hmem | hmem
    · obtain ⟨rfl, hex⟩ := syncDailyMetric_invoke_key api d filename meth fs m hmem
      have := hgood filename meth (List.mem_cons_self _ _) d
      rw [this] at hkey
      simp only [Option.some.injEq, Prod.mk.injEq] at hkey
      obtain ⟨rfl, rfl⟩ := hkey
      exact hex
    · have hnext := ih (fun f2 m2 h2 => hgood f2 m2 (List.mem_cons_of_mem _ h2)) _ m dk fk
        hkey hmem
      cases hfs : fsExists fs (FPath.daily dk fk) with
      | false => rfl
      | true =>
        have := syncDailyMetric_mono api d filename meth fs (FPath.daily dk fk) hfs
        rw [this] at hnext
        exact hnext

theorem syncOneDay_invoke_key (api : Api) (c : Int) (fs : FS) (m : ApiMethod)
    (dk : Int) (fk : String) (hkey : methodKey m = some (dk, fk))
    (hmem : Ev.invoke m ∈ (syncOneDay api c fs).2) :
    fsExists fs (FPath.daily dk fk) = false := by
  rw [syncOneDay_eq] at hmem
  dsimp only at hmem
  rcases List.mem_append.mp hmem with hmem | hmem
  · exact syncDailyMetrics_invoke_key api c daily_calls daily_calls_methodKey fs m dk fk
      hkey hmem
  · obtain ⟨rfl, hex⟩ := syncBodyBattery_invoke_key api c _ m hmem
    have hbb : methodKey (ApiMethod.get_body_battery c c)
        = some (c, "body_battery.json") := by
      simp [methodKey]
    rw [hbb] at hkey
    simp only [Option.some.injEq, Prod.mk.injEq] at hkey
    obtain ⟨rfl, rfl⟩ := hkey
    cases hfs : fsExists fs (FPath.daily c "body_battery.json") with
    | false => rfl
    | true =>
      have := syncDailyMetrics_mono api c daily_calls fs
        (FPath.daily c "body_battery.json") hfs
      rw [this] at hex
      exact hex

theorem syncDaysCount_invoke_key (api : Api) (n : Nat) :
    ∀ (c : Int) (fs : FS) (m : ApiMethod) (dk : Int) (fk : String),
      methodKey m = some (dk, fk) →
      Ev.invoke m ∈ (syncDaysCount api c n fs).2 →
      fsExists fs (FPath.daily dk fk) = false := by
  induction n with
  | zero =>
    intro c fs m dk fk _ hmem
    simp [syncDaysCount] at hmem
  | succ n ih =>
    intro c fs m dk fk hkey hmem
    rw [syncDaysCount_succ] at hmem
    dsimp only at hmem
    rcases List.mem_append.mp hmem with hmem | hmem
    · exact syncOneDay_invoke_key api c fs m dk fk hkey hmem
    · have hnext := ih (c + 1) _ m dk fk hkey hmem
      cases hfs : fsExists fs (FPath.daily dk fk) with
      | false => rfl
      | true =>
        have := syncOneDay_mono api c fs (FPath.daily dk fk) hfs
        rw [this] at hnext
        exact hnext

theorem sync_daily_data_invoke_key (api : Api) (start finish : Int) (fs : FS)
    (m : ApiMethod) (dk : Int) (fk : String)
    (hkey : methodKey m = some (dk, fk))
    (hmem : Ev.invoke m ∈ (sync_daily_data api start finish fs).2) :
    fsExists fs (FPath.daily dk fk) = false := by
  unfold sync_daily_data at hmem
  exact syncDaysCount_invoke_key api _ start fs m dk fk hkey hmem

theorem writeCount_append (e1 e2 : List Ev) (p : FPath) :
    writeCount (e1 ++ e2) p = writeCount e1 p + writeCount e2 p := by
  simp [writeCount, writesOf_append, List.filter_append]

theorem writeCount_nil (p : FPath) : writeCount [] p = 0 := rfl

theorem WriteSpec.noop (p : FPath) (fs : FS) (evs : List Ev)
    (h : writeCount evs p = 0) : WriteSpec p fs fs evs := by
  refine ⟨by rw [h]; omega, ?_, fun hx => hx⟩
  intro hge
  rw [h] at hge
  omega

theorem WriteSpec.seq (p : FPath) (fs1 fs2 fs3 : FS) (e1 e2 : List Ev)
    (h1 : WriteSpec p fs1 fs2 e1) (h2 : WriteSpec p fs2 fs3 e2) :
    WriteSpec p fs1 fs3 (e1 ++ e2) := by
  obtain ⟨a1, b1, c1⟩ := h1
  obtain ⟨a2, b2, c2⟩ := h2
  refine ⟨?_, ?_, ?_⟩
  · rw [writeCount_append]
    by_cases hc1 : writeCount e1 p = 0
    · omega
    · have hge : 1 ≤ writeCount e1 p := by omega
      obtain ⟨hf1, hf2⟩ := b1 hge
      have hcnt2 : writeCount e2 p = 0 := by
        by_contra hne
        have hge2 : 1 ≤ writeCount e2 p := by omega
        obtain ⟨hx, _⟩ := b2 hge2
        rw [hf2] at hx
        exact Bool.noConfusion hx
      omega
  · intro hge
    rw [writeCount_append] at hge
    by_cases hc1 : 1 ≤ writeCount e1 p
    · obtain ⟨hf1, hf2⟩ := b1 hc1
      exact ⟨hf1, c2 hf2⟩
    · have hge2 : 1 ≤ writeCount e2 p := by omega
      obtain ⟨hf2, hf3⟩ := b2 hge2
      refine ⟨?_, hf3⟩
      cases hx : fsExists fs1 p with
      | false => rfl
      | true =>
        rw [c1 hx] at hf2
        exact hf2
  · intro hx
    exact c2 (c1 hx)

theorem syncDailyMetric_writeSpec (api : Api) (d : Int) (filename : String)
    (meth : Int → ApiMethod) (fs : FS) (p : FPath) :
    WriteSpec p fs (syncDailyMetric api d filename meth fs).1
      (syncDailyMetric api d filename meth fs).2 := by
  by_cases hex : fsExists fs (FPath.daily d filename) = true
  · rw [syncDailyMetric_cached api d filename meth fs hex]
    exact WriteSpec.noop p fs [] (writeCount_nil p)
  · have hex' : fsExists fs (FPath.daily d filename) = false := by simpa using hex
    cases hc : (api_call api (meth d)).1 with
    | none =>
      rw [syncDailyMetric_fetch_none api d filename meth fs hex' hc]
      refine WriteSpec.noop p fs _ ?_
      simp [writeCount_append, writeCount, writesOf_append, api_call_no_writes,
        writesOf_cons_sleep, writesOf_nil]
    | some v =>
      rw [syncDailyMetric_fetch_some api d filename meth fs v hex' hc]
      have hw : writesOf ((api_call api (meth d)).2 ++
          [Ev.write (FPath.daily d filename) v, Ev.sleepSecs API_DELAY])
          = [(FPath.daily d filename, v)] := by
        simp [writesOf_append, api_call_no_writes, writesOf_cons_write,
          writesOf_cons_sleep, writesOf_nil]
      by_cases hp : FPath.daily d filename = p
      · subst hp
        refine ⟨?_, ?_, ?_⟩
        · simp [writeCount, hw]
        · intro _
          exact ⟨hex', fsExists_cons_self fs _ v⟩
        · intro hx
          rw [hex'] at hx
          exact Bool.noConfusion hx
      · have hcnt : writeCount ((api_call api (meth d)).2 ++
            [Ev.write (FPath.daily d filename) v, Ev.sleepSecs API_DELAY]) p = 0 := by
          simp [writeCount, hw, hp]
        refine ⟨by rw [hcnt]; omega, ?_, ?_⟩
        · intro hge
          rw [hcnt] at hge
          omega
        · intro hx
          exact fsExists_cons_of _ _ _ _ hx

theorem syncBodyBattery_writeSpec (api : Api) (d : Int) (fs : FS) (p : FPath) :
    WriteSpec p fs (syncBodyBattery api d fs).1 (syncBodyBattery api d fs).2 := by
  by_cases hex : fsExists fs (FPath.daily d "body_battery.json") = true
  · rw [syncBodyBattery_cached api d fs hex]
    exact WriteSpec.noop p fs [] (writeCount_nil p)
  · have hex' : fsExists fs (FPath.daily d "body_battery.json") = false := by simpa using hex
    cases hc : (api_call api (ApiMethod.get_body_battery d d)).1 with
    | none =>
      rw [syncBodyBattery_fetch_none api d fs hex' hc]
      refine WriteSpec.noop p fs _ ?_
      simp [writeCount_append, writeCount, writesOf_append, api_call_no_writes,
        writesOf_cons_sleep, writesOf_nil]
    | some v =>
      rw [syncBodyBattery_fetch_some api d fs v hex' hc]
      have hw : writesOf ((api_call api (ApiMethod.get_body_battery d d)).2 ++
          [Ev.write (FPath.daily d "body_battery.json") v, Ev.sleepSecs API_DELAY])
          = [(FPath.daily d "body_battery.json", v)] := by
        simp [writesOf_append, api_call_no_writes, writesOf_cons_write,
          writesOf_cons_sleep, writesOf_nil]
      by_cases hp : FPath.daily d "body_battery.json" = p
      · subst hp
        refine ⟨?_, ?_, ?_⟩
        · simp [writeCount, hw]
        · intro _
          exact ⟨hex', fsExists_cons_self fs _ v⟩
        · intro hx
          rw [hex'] at hx
          exact Bool.noConfusion hx
      · have hcnt : writeCount ((api_call api (ApiMethod.get_body_battery d d)).2 ++
            [Ev.write (FPath.daily d "body_battery.json") v, Ev.sleepSecs API_DELAY]) p
            = 0 := by
          simp [writeCount, hw, hp]
        refine ⟨by rw [hcnt]; omega, ?_, ?_⟩
        · intro hge
          rw [hcnt] at hge
          omega
        · intro hx
          exact fsExists_cons_of _ _ _ _ hx

theorem syncDailyMetrics_writeSpec (api : Api) (d : Int)
    (cs : List (String × (Int → ApiMethod))) : ∀ fs (p : FPath),
    WriteSpec p fs (syncDailyMetrics api d cs fs).1 (syncDailyMetrics api d cs fs).2 := by
  induction cs with
  | nil =>
    intro fs p
    exact WriteSpec.noop p fs [] (writeCount_nil p)
  | cons c rest ih =>
    intro fs p
    rcases c with ⟨filename, meth⟩
    rw [syncDailyMetrics_cons]
    dsimp only
    exact WriteSpec.seq p fs _ _ _ _
      (syncDailyMetric_writeSpec api d filename meth fs p) (ih _ p)

theorem syncOneDay_writeSpec (api : Api) (d : Int) (fs : FS) (p : FPath) :
    WriteSpec p fs (syncOneDay api d fs).1 (syncOneDay api d fs).2 := by
  rw [syncOneDay_eq]
  dsimp only
  exact WriteSpec.seq p fs _ _ _ _
    (syncDailyMetrics_writeSpec api d daily_calls fs p) (syncBodyBattery_writeSpec api d _ p)

theorem syncDaysCount_writeSpec (api : Api) (n : Nat) : ∀ (c : Int) fs (p : FPath),
    WriteSpec p fs (syncDaysCount api c n fs).1 (syncDaysCount api c n fs).2 := by
  induction n with
  | zero =>
    intro c fs p
    exact WriteSpec.noop p fs [] (writeCount_nil p)
  | succ n ih =>
    intro c fs p
    rw [syncDaysCount_succ]
    dsimp only
    exact WriteSpec.seq p fs _ _ _ _ (syncOneDay_writeSpec api c fs p) (ih (c + 1) _ p)

theorem sync_daily_data_writeSpec (api : Api) (start finish : Int) (fs : FS) (p : FPath) :
    WriteSpec p fs (sync_daily_data api start finish fs).1
      (sync_daily_data api start finish fs).2 := by
  unfold sync_daily_data
  exact syncDaysCount_writeSpec api _ start fs p

/-- C4: for every date `d` and each of the thirteen daily metrics (the twelve
single-date metrics plus `body_battery`), `sync_daily_data` writes at most one
file per metric per day, and when `daily/<d>/<metric>.json` already exists
before the run no remote call for that metric and day is made — no invocation
of that method at date `d` appears in the trace. -/
theorem C4_daily_write_once_and_cached_no_call (api : Api) (start finish d : Int)
    (fs : FS) (filename : String) (meth : Int → ApiMethod) :
    writeCount (sync_daily_data api start finish fs).2 (FPath.daily d filename) ≤ 1 ∧
    ((filename, meth) ∈ daily_calls →
      fsExists fs (FPath.daily d filename) = true →
      Ev.invoke (meth d) ∉ (sync_daily_data api start finish fs).2) ∧
    (fsExists fs (FPath.daily d "body_battery.json") = true →
      Ev.invoke (ApiMethod.get_body_battery d d) ∉
        (sync_daily_data api start finish fs).2) := by
  refine ⟨?_, ?_, ?_⟩
  · exact (sync_daily_data_writeSpec api start finish fs (FPath.daily d filename)).1
  · intro hmem hex hin
    have hkey := daily_calls_methodKey filename meth hmem d
    have hfalse := sync_daily_data_invoke_key api start finish fs (meth d) d filename
      hkey hin
    rw [hex] at hfalse
    exact Bool.noConfusion hfalse
  · intro hex hin
    have hkey : methodKey (ApiMethod.get_body_battery d d)
        = some (d, "body_battery.json") := by
      simp [methodKey]
    have hfalse := sync_daily_data_invoke_key api start finish fs _ d
      "body_battery.json" hkey hin
    rw [hex] at hfalse
    exact Bool.noConfusion hfalse

/-- Witness for C4 at a one-day range whose `summary.json` and
`body_battery.json` already exist. -/
theorem C4_daily_witness :
    Ev.invoke (ApiMethod.get_user_summary 0) ∉
      (sync_daily_data (fun _ _ => CallOutcome.ok Json.null) 0 0
        [(FPath.daily 0 "summary.json", Json.null),
         (FPath.daily 0 "body_battery.json", Json.null)]).2 ∧
    Ev.invoke (ApiMethod.get_body_battery 0 0) ∉
      (sync_daily_data (fun _ _ => CallOutcome.ok Json.null) 0 0
        [(FPath.daily 0 "summary.json", Json.null),
         (FPath.daily 0 "body_battery.json", Json.null)]).2 :=
  ⟨(C4_daily_write_once_and_cached_no_call (fun _ _ => CallOutcome.ok Json.null) 0 0 0
      [(FPath.daily 0 "summary.json", Json.null),
       (FPath.daily 0 "body_battery.json", Json.null)]
      "summary.json" ApiMethod.get_user_summary).2.1 (by simp [daily_calls]) (by decide),
   (C4_daily_write_once_and_cached_no_call (fun _ _ => CallOutcome.ok Json.null) 0 0 0
      [(FPath.daily 0 "summary.json", Json.null),
       (FPath.daily 0 "body_battery.json", Json.null)]
      "summary.json" ApiMethod.get_user_summary).2.2 (by decide)⟩

theorem fetchAndSave_some (api : Api) (m : ApiMethod) (p : FPath) (fs : FS) (v : Json)
    (hc : (api_call api m).1 = some v) :
    fetchAndSave api m p fs = ((p, v) :: fs, (api_call api m).2 ++ [Ev.write p v]) := by
  unfold fetchAndSave
  rw [hc]
  rfl

theorem fetchAndSave_none (api : Api) (m : ApiMethod) (p : FPath) (fs : FS)
    (hc : (api_call api m).1 = none) :
    fetchAndSave api m p fs = (fs, (api_call api m).2) := by
  unfold fetchAndSave
  rw [hc]

theorem fetchAndSave_writes (api : Api) (m : ApiMethod) (p : FPath) (fs : FS) :
    writesOf (fetchAndSave api m p fs).2 =
      (match (api_call api m).1 with
        | some v => [(p, v)]
        | none => []) := by
  cases hc : (api_call api m).1 with
  | none =>
    rw [fetchAndSave_none api m p fs hc]
    simp [api_call_no_writes]
  | some v =>
    rw [fetchAndSave_some api m p fs v hc]
    simp [writesOf_append, api_call_no_writes, writesOf_cons_write, writesOf_nil]

theorem fetchAndSave_mono (api : Api) (m : ApiMethod) (p : FPath) (fs : FS) :
    FsLe fs (fetchAndSave api m p fs).1 := by
  intro q hq
  cases hc : (api_call api m).1 with
  | none =>
    rw [fetchAndSave_none api m p fs hc]
    exact hq
  | some v =>
    rw [fetchAndSave_some api m p fs v hc]
    exact fsExists_cons_of _ _ _ _ hq

theorem sync_body_composition_writes (api : Api) (s e : Int) (fs : FS) :
    writesOf (sync_body_composition api s e fs).2 =
      (match (api_call api (ApiMethod.get_body_composition s e)).1 with
        | some v => [(FPath.bodyComp "body_comp.json", v)]
        | none => []) ++
      (match (api_call api (ApiMethod.get_weigh_ins s e)).1 with
        | some v => [(FPath.bodyComp "weigh_ins.json", v)]
        | none => []) := by
  unfold sync_body_composition
  dsimp only
  rw [writesOf_append, writesOf_cons_sleep, fetchAndSave_writes, fetchAndSave_writes]

theorem sync_body_composition_mono (api : Api) (s e : Int) (fs : FS) :
    FsLe fs (sync_body_composition api s e fs).1 := by
  intro q hq
  unfold sync_body_composition
  dsimp only
  exact fetchAndSave_mono api _ _ _ q (fetchAndSave_mono api _ _ fs q hq)

theorem sync_weekly_writes (api : Api) (today : Int) (fs : FS) :
    writesOf (sync_weekly api today fs).2 =
      (match (api_call api (ApiMethod.get_weekly_steps today 52)).1 with
        | some v => [(FPath.weekly "steps.json", v)]
        | none => []) ++
      (match (api_call api (ApiMethod.get_weekly_stress today 52)).1 with
        | some v => [(FPath.weekly "stress.json", v)]
        | none => []) := by
  unfold sync_weekly
  dsimp only
  rw [writesOf_append, writesOf_cons_sleep, fetchAndSave_writes, fetchAndSave_writes]

theorem sync_weekly_mono (api : Api) (today : Int) (fs : FS) :
    FsLe fs (sync_weekly api today fs).1 := by
  intro q hq
  unfold sync_weekly
  dsimp only
  exact fetchAndSave_mono api _ _ _ q (fetchAndSave_mono api _ _ fs q hq)

theorem sync_profile_writes (api : Api) (fs : FS) :
    writesOf (sync_profile api fs).2 =
      (match (api_call api ApiMethod.get_user_profile).1 with
        | some v => [(FPath.profile "user_profile.json", v)]
        | none => []) ++
      (match (api_call api ApiMethod.get_devices).1 with
        | some v => [(FPath.profile "devices.json", v)]
        | none => []) := by
  unfold sync_profile
  dsimp only
  rw [writesOf_append, writesOf_cons_sleep, fetchAndSave_writes, fetchAndSave_writes]

theorem sync_profile_mono (api : Api) (fs : FS) :
    FsLe fs (sync_profile api fs).1 := by
  intro q hq
  unfold sync_profile
  dsimp only
  exact fetchAndSave_mono api _ _ _ q (fetchAndSave_mono api _ _ fs q hq)

theorem sync_personal_records_writes (api : Api) (fs : FS) :
    writesOf (sync_personal_records api fs).2 =
      (match (api_call api ApiMethod.get_personal_record).1 with
        | some v => [(FPath.personalRecords, v)]
        | none => []) := by
  unfold sync_personal_records
  rw [fetchAndSave_writes]

theorem sync_personal_records_mono (api : Api) (fs : FS) :
    FsLe fs (sync_personal_records api fs).1 := by
  intro q hq
  unfold sync_personal_records
  exact fetchAndSave_mono api _ _ fs q hq

theorem save_sync_state_writes (fs : FS) (d : Int) :
    writesOf (save_sync_state fs d).2 = [(FPath.syncState, sync_state_json d)] := rfl

theorem save_sync_state_mono (fs : FS) (d : Int) :
    FsLe fs (save_sync_state fs d).1 := by
  intro q hq
  exact fsExists_cons_of _ _ _ _ hq

theorem stepSeq_fst (s1 s2 : FS → FS × List Ev) (fs : FS) :
    (stepSeq s1 s2 fs).1 = (s2 (s1 fs).1).1 := rfl

theorem stepSeq_writes (s1 s2 : FS → FS × List Ev) (fs : FS) :
    writesOf (stepSeq s1 s2 fs).2
      = writesOf (s1 fs).2 ++ writesOf (s2 (s1 fs).1).2 := by
  unfold stepSeq
  exact writesOf_append _ _

theorem stepEvs_writes (evs : List Ev) (fs : FS) :
    writesOf (stepEvs evs fs).2 = writesOf evs := rfl

theorem stepEvs_fst (evs : List Ev) (fs : FS) : (stepEvs evs fs).1 = fs := rfl

theorem processActivityFull_mono (api : Api) (a : Json) (fs : FS) (t : Nat) :
    FsLe fs (processActivityFull api a fs t).1 := by
  intro q hq
  by_cases htr : truthy (jGet a "activityId") = true
  · by_cases hex : fsExists fs (FPath.activity (jGet a "activityId")) = true
    · rw [processActivityFull_cached api a fs t htr hex]
      exact hq
    · rw [processActivityFull_fetch api a fs t htr (by simpa using hex)]
      exact fsExists_cons_of _ _ _ _ hq
  · rw [processActivityFull_falsy api a fs t (by simpa using htr)]
    exact hq

theorem processBatchFull_mono (api : Api) (xs : List Json) : ∀ fs t,
    FsLe fs (processBatchFull api xs fs t).1 := by
  induction xs with
  | nil =>
    intro fs t q hq
    exact hq
  | cons a rest ih =>
    intro fs t q hq
    show fsExists (processBatchFull api rest (processActivityFull api a fs t).1
      (processActivityFull api a fs t).2.1).1 q = true
    exact ih _ _ q (processActivityFull_mono api a fs t q hq)

theorem syncActivitiesPages_mono (api : Api) (fuel : Nat) : ∀ start limit total fs,
    FsLe fs (syncActivitiesPages api fuel start limit total fs).1 := by
  induction fuel with
  | zero =>
    intro start limit total fs q hq
    exact hq
  | succ fuel ih =>
    intro start limit total fs q hq
    cases hc : (api_call api (ApiMethod.get_activities start limit)).1 with
    | none =>
      rw [syncActivitiesPages_stop_none api fuel start limit total fs hc]
      exact hq
    | some b =>
      by_cases htr : truthy b = true
      · by_cases hlen : (jArr b).length < limit
        · rw [syncActivitiesPages_stop_short api fuel start limit total fs b hc htr hlen]
          exact processBatchFull_mono api _ fs total q hq
        · rw [syncActivitiesPages_advance api fuel start limit total fs b hc htr hlen]
          exact ih _ _ _ _ q (processBatchFull_mono api _ fs total q hq)
      · rw [syncActivitiesPages_stop_falsy api fuel start limit total fs b hc
          (by simpa using htr)]
        exact hq

theorem sync_activities_full_mono (api : Api) (fuel : Nat) (fs : FS) :
    FsLe fs (sync_activities_full api fuel fs).1 := by
  intro q hq
  unfold sync_activities_full
  exact syncActivitiesPages_mono api fuel 0 100 0 fs q hq

theorem processActivityIncr_mono (api : Api) (a : Json) (fs : FS) :
    FsLe fs (processActivityIncr api a fs).1 := by
  intro q hq
  by_cases htr : truthy (jGet a "activityId") = true
  · by_cases hex : fsExists fs (FPath.activity (jGet a "activityId")) = true
    · rw [processActivityIncr_cached api a fs htr hex]
      exact hq
    · rw [processActivityIncr_fetch api a fs htr (by simpa using hex)]
      exact fsExists_cons_of _ _ _ _ hq
  · rw [processActivityIncr_falsy api a fs (by simpa using htr)]
    exact hq

theorem processBatchIncr_mono (api : Api) (xs : List Json) : ∀ fs,
    FsLe fs (processBatchIncr api xs fs).1 := by
  induction xs with
  | nil =>
    intro fs q hq
    exact hq
  | cons a rest ih =>
    intro fs q hq
    show fsExists (processBatchIncr api rest (processActivityIncr api a fs).1).1 q = true
    exact ih _ q (processActivityIncr_mono api a fs q hq)

theorem sync_activities_incremental_mono (api : Api) (s e : Int) (fs : FS) :
    FsLe fs (sync_activities_incremental api s e fs).1 := by
  intro q hq
  unfold sync_activities_incremental
  cases hc : (api_call api (ApiMethod.get_activities_by_date s e)).1 with
  | none => exact hq
  | some b =>
    by_cases htr : truthy b = true
    · simp only [htr, if_true]
      exact processBatchIncr_mono api _ fs q hq
    · simp only [htr, if_false]
      exact hq

theorem FsLe_trans (a b c : FS) (h1 : FsLe a b) (h2 : FsLe b c) : FsLe a c :=
  fun p hp => h2 p (h1 p hp)

theorem metricCovered_mono (api : Api) (fs fs2 : FS) (d : Int) (filename : String)
    (meth : Int → ApiMethod) (hle : FsLe fs fs2)
    (h : metricCovered api fs d filename meth) : metricCovered api fs2 d filename meth := by
  rcases h with h | h
  · exact Or.inl (hle _ h)
  · exact Or.inr h

theorem dayCovered_mono (api : Api) (fs fs2 : FS) (d : Int) (hle : FsLe fs fs2)
    (h : dayCovered api fs d) : dayCovered api fs2 d := by
  obtain ⟨h1, h2⟩ := h
  refine ⟨fun f m hm => metricCovered_mono api fs fs2 d f m hle (h1 f m hm), ?_⟩
  rcases h2 with h2 | h2
  · exact Or.inl (hle _ h2)
  · exact Or.inr h2

theorem syncDailyMetric_establishes (api : Api) (d : Int) (filename : String)
    (meth : Int → ApiMethod) (fs : FS) :
    metricCovered api (syncDailyMetric api d filename meth fs).1 d filename meth := by
  by_cases hex : fsExists fs (FPath.daily d filename) = true
  · rw [syncDailyMetric_cached api d filename meth fs hex]
    exact Or.inl hex
  · cases hc : (api_call api (meth d)).1 with
    | none => exact Or.inr hc
    | some v =>
      rw [syncDailyMetric_fetch_some api d filename meth fs v (by simpa using hex) hc]
      exact Or.inl (fsExists_cons_self fs _ v)

theorem syncBodyBattery_establishes (api : Api) (d : Int) (fs : FS) :
    fsExists (syncBodyBattery api d fs).1 (FPath.daily d "body_battery.json") = true ∨
      (api_call api (ApiMethod.get_body_battery d d)).1 = none := by
  by_cases hex : fsExists fs (FPath.daily d "body_battery.json") = true
  · rw [syncBodyBattery_cached api d fs hex]
    exact Or.inl hex
  · cases hc : (api_call api (ApiMethod.get_body_battery d d)).1 with
    | none => exact Or.inr rfl
    | some v =>
      rw [syncBodyBattery_fetch_some api d fs v (by simpa using hex) hc]
      exact Or.inl (fsExists_cons_self fs _ v)

theorem syncDailyMetrics_establishes (api : Api) (d : Int)
    (cs : List (String × (Int → ApiMethod))) : ∀ fs filename meth,
    (filename, meth) ∈ cs →
    metricCovered api (syncDailyMetrics api d cs fs).1 d filename meth := by
  induction cs with
  | nil =>
    intro fs filename meth hm
    simp at hm
  | cons c rest ih =>
    intro fs filename meth hm
    rcases c with ⟨f0, m0⟩
    rw [syncDailyMetrics_cons]
    dsimp only
    rcases List.mem_cons.mp hm with hm | hm
    · injection hm with hf hm0
      subst hf
      subst hm0
      exact metricCovered_mono api _ _ d filename meth
        (syncDailyMetrics_mono api d rest _)
        (syncDailyMetric_establishes api d filename meth fs)
    · exact ih _ filename meth hm

theorem syncOneDay_establishes (api : Api) (d : Int) (fs : FS) :
    dayCovered api (syncOneDay api d fs).1 d := by
  rw [dayCovered, syncOneDay_eq]
  dsimp only
  constructor
  · intro filename meth hm
    exact metricCovered_mono api _ _ d filename meth
      (syncBodyBattery_mono api d _)
      (syncDailyMetrics_establishes api d daily_calls fs filename meth hm)
  · exact syncBodyBattery_establishes api d _

theorem syncDaysCount_establishes (api : Api) (n : Nat) : ∀ (c : Int) (fs : FS) (e : Int),
    c ≤ e → e < c + (n : Int) →
    dayCovered api (syncDaysCount api c n fs).1 e := by
  induction n with
  | zero =>
    intro c fs e h1 h2
    simp at h2
    omega
  | succ n ih =>
    intro c fs e h1 h2
    have heq : (syncDaysCount api c (n + 1) fs).1
        = (syncDaysCount api (c + 1) n (syncOneDay api c fs).1).1 := rfl
    rw [heq]
    by_cases he : e = c
    · subst he
      exact dayCovered_mono api _ _ e (syncDaysCount_mono api n (e + 1) _)
        (syncOneDay_establishes api e fs)
    · have h1' : c + 1 ≤ e := by omega
      have h2' : e < (c + 1) + (n : Int) := by push_cast at h2 ⊢; omega
      exact ih (c + 1) _ e h1' h2'

theorem sync_daily_data_establishes (api : Api) (start finish : Int) (fs : FS) (e : Int)
    (h1 : start ≤ e) (h2 : e ≤ finish) :
    dayCovered api (sync_daily_data api start finish fs).1 e := by
  unfold sync_daily_data
  apply syncDaysCount_establishes api _ start fs e h1
  have hnn : (0 : Int) ≤ finish + 1 - start := by omega
  rw [Int.toNat_of_nonneg hnn]
  omega

theorem syncDailyMetric_covered_noop (api : Api) (d : Int) (filename : String)
    (meth : Int → ApiMethod) (fs : FS)
    (h : metricCovered api fs d filename meth) :
    (syncDailyMetric api d filename meth fs).1 = fs ∧
      writesOf (syncDailyMetric api d filename meth fs).2 = [] := by
  by_cases hex : fsExists fs (FPath.daily d filename) = true
  · rw [syncDailyMetric_cached api d filename meth fs hex]
    exact ⟨rfl, rfl⟩
  · have hc : (api_call api (meth d)).1 = none := by
      rcases h with h | h
      · exact absurd h hex
      · exact h
    rw [syncDailyMetric_fetch_none api d filename meth fs (by simpa using hex) hc]
    refine ⟨rfl, ?_⟩
    simp [writesOf_append, api_call_no_writes, writesOf_cons_sleep, writesOf_nil]

theorem syncBodyBattery_covered_noop (api : Api) (d : Int) (fs : FS)
    (h : fsExists fs (FPath.daily d "body_battery.json") = true ∨
      (api_call api (ApiMethod.get_body_battery d d)).1 = none) :
    (syncBodyBattery api d fs).1 = fs ∧
      writesOf (syncBodyBattery api d fs).2 = [] := by
  by_cases hex : fsExists fs (FPath.daily d "body_battery.json") = true
  · rw [syncBodyBattery_cached api d fs hex]
    exact ⟨rfl, rfl⟩
  · have hc : (api_call api (ApiMethod.get_body_battery d d)).1 = none := by
      rcases h with h | h
      · exact absurd h hex
      · exact h
    rw [syncBodyBattery_fetch_none api d fs (by simpa using hex) hc]
    refine ⟨rfl, ?_⟩
    simp [writesOf_append, api_call_no_writes, writesOf_cons_sleep, writesOf_nil]

theorem syncDailyMetrics_covered_noop (api : Api) (d : Int)
    (cs : List (String × (Int → ApiMethod))) : ∀ fs,
    (∀ filename meth, (filename, meth) ∈ cs → metricCovered api fs d filename meth) →
    (syncDailyMetrics api d cs fs).1 = fs ∧
      writesOf (syncDailyMetrics api d cs fs).2 = [] := by
  induction cs with
  | nil =>
    intro fs _
    exact ⟨rfl, rfl⟩
  | cons c rest ih =>
    intro fs hall
    rcases c with ⟨f0, m0⟩
    rw [syncDailyMetrics_cons]
    dsimp only
    obtain ⟨hfs0, hw0⟩ := syncDailyMetric_covered_noop api d f0 m0 fs
      (hall f0 m0 (List.mem_cons_self _ _))
    rw [hfs0]
    obtain ⟨hfs1, hw1⟩ := ih fs
      (fun f m hm => hall f m (List.mem_cons_of_mem _ hm))
    refine ⟨hfs1, ?_⟩
    rw [writesOf_append, hw0, hw1]
    rfl

theorem syncOneDay_covered_noop (api : Api) (d : Int) (fs : FS)
    (h : dayCovered api fs d) :
    (syncOneDay api d fs).1 = fs ∧ writesOf (syncOneDay api d fs).2 = [] := by
  obtain ⟨h1, h2⟩ := h
  rw [syncOneDay_eq]
  dsimp only
  obtain ⟨hfs1, hw1⟩ := syncDailyMetrics_covered_noop api d daily_calls fs h1
  rw [hfs1]
  obtain ⟨hfs2, hw2⟩ := syncBodyBattery_covered_noop api d fs h2
  refine ⟨hfs2, ?_⟩
  rw [writesOf_append, hw1, hw2]
  rfl

theorem sync_daily_one_day_noop (api : Api) (today : Int) (fs : FS)
    (h : dayCovered api fs today) :
    (sync_daily_data api today today fs).1 = fs ∧
      writesOf (sync_daily_data api today today fs).2 = [] := by
  unfold sync_daily_data
  have h1 : (today + 1 - today).toNat = 0 + 1 := by omega
  rw [h1, syncDaysCount_succ]
  dsimp only
  obtain ⟨hfs1, hw1⟩ := syncOneDay_covered_noop api today fs h
  rw [hfs1]
  have h0 : syncDaysCount api (today + 1) 0 fs = (fs, []) := rfl
  rw [h0]
  refine ⟨rfl, ?_⟩
  rw [writesOf_append, hw1]
  rfl

theorem processBatchIncr_covered_noop (api : Api) (xs : List Json) : ∀ fs,
    (∀ a ∈ xs, truthy (jGet a "activityId") = true →
      fsExists fs (FPath.activity (jGet a "activityId")) = true) →
    processBatchIncr api xs fs = (fs, []) := by
  induction xs with
  | nil =>
    intro fs _
    rfl
  | cons a rest ih =>
    intro fs hall
    have hA : processActivityIncr api a fs = (fs, []) := by
      by_cases htr : truthy (jGet a "activityId") = true
      · exact processActivityIncr_cached api a fs htr
          (hall a (List.mem_cons_self _ _) htr)
      · exact processActivityIncr_falsy api a fs (by simpa using htr)
    show ((processBatchIncr api rest (processActivityIncr api a fs).1).1,
      (processActivityIncr api a fs).2 ++
        (processBatchIncr api rest (processActivityIncr api a fs).1).2) = (fs, [])
    rw [hA]
    dsimp only
    rw [ih fs (fun b hb => hall b (List.mem_cons_of_mem _ hb))]
    rfl

theorem sync_activities_incremental_covered_noop (api : Api) (s e : Int) (fs : FS)
    (hall : ∀ a ∈ jArr ((api_call api (ApiMethod.get_activities_by_date s e)).1.getD
        Json.null),
      truthy (jGet a "activityId") = true →
      fsExists fs (FPath.activity (jGet a "activityId")) = true) :
    (sync_activities_incremental api s e fs).1 = fs ∧
      writesOf (sync_activities_incremental api s e fs).2 = [] := by
  unfold sync_activities_incremental
  cases hc : (api_call api (ApiMethod.get_activities_by_date s e)).1 with
  | none =>
    refine ⟨rfl, ?_⟩
    simp [writesOf_append, api_call_no_writes, writesOf_cons_msg, writesOf_nil]
  | some b =>
    by_cases htr : truthy b = true
    · simp only [htr, if_true]
      rw [hc] at hall
      simp only [Option.getD_some] at hall
      rw [processBatchIncr_covered_noop api (jArr b) fs hall]
      refine ⟨rfl, ?_⟩
      simp [writesOf_append, api_call_no_writes, writesOf_nil]
    · simp only [htr, if_false]
      refine ⟨rfl, ?_⟩
      simp [writesOf_append, api_call_no_writes, writesOf_cons_msg, writesOf_nil]

theorem load_sync_state_main_sync (api : Api) (fuel : Nat) (today : Int) (fs : FS) :
    load_sync_state (main_sync api fuel today fs).1 = some today := by
  unfold main_sync
  simp only [stepSeq_fst, stepEvs_fst]
  rfl

theorem main_sync_state_write (api : Api) (fuel : Nat) (today : Int) (fs : FS) :
    (FPath.syncState, sync_state_json today) ∈ writesOf (main_sync api fuel today fs).2 := by
  unfold main_sync
  simp [stepSeq_writes, stepEvs_writes, stepSeq_fst, stepEvs_fst, save_sync_state_writes]

theorem main_sync_dayCovered (api : Api) (fuel : Nat) (today : Int) (fs : FS)
    (hstart : computed_start_date (load_sync_state fs) today ≤ today) :
    dayCovered api (main_sync api fuel today fs).1 today := by
  unfold main_sync
  simp only [stepSeq_fst, stepEvs_fst]
  apply dayCovered_mono api _ _ today (save_sync_state_mono _ today)
  apply dayCovered_mono api _ _ today (sync_personal_records_mono api _)
  apply dayCovered_mono api _ _ today (sync_profile_mono api _)
  apply dayCovered_mono api _ _ today (sync_weekly_mono api today _)
  apply dayCovered_mono api _ _ today (sync_body_composition_mono api _ today _)
  rcases hls : load_sync_state fs with _ | x
  · dsimp only
    apply dayCovered_mono api _ _ today (sync_activities_full_mono api fuel _)
    refine sync_daily_data_establishes api _ today fs today ?_ le_rfl
    rw [hls] at hstart
    exact hstart
  · dsimp only
    apply dayCovered_mono api _ _ today (sync_activities_incremental_mono api _ today _)
    refine sync_daily_data_establishes api _ today fs today ?_ le_rfl
    rw [hls] at hstart
    exact hstart

theorem sync_body_composition_writes_subset (api : Api) (s e : Int) (fs : FS)
    (q : FPath) (v : Json)
    (h : (q, v) ∈ writesOf (sync_body_composition api s e fs).2) :
    q = FPath.bodyComp "body_comp.json" ∨ q = FPath.bodyComp "weigh_ins.json" := by
  rw [sync_body_composition_writes] at h
  rcases List.mem_append.mp h with h | h
  · cases hc : (api_call api (ApiMethod.get_body_composition s e)).1 with
    | none => rw [hc] at h; simp at h
    | some w => rw [hc] at h; simp at h; exact Or.inl h.1
  · cases hc : (api_call api (ApiMethod.get_weigh_ins s e)).1 with
    | none => rw [hc] at h; simp at h
    | some w => rw [hc] at h; simp at h; exact Or.inr h.1

theorem sync_weekly_writes_subset (api : Api) (today : Int) (fs : FS)
    (q : FPath) (v : Json)
    (h : (q, v) ∈ writesOf (sync_weekly api today fs).2) :
    q = FPath.weekly "steps.json" ∨ q = FPath.weekly "stress.json" := by
  rw [sync_weekly_writes] at h
  rcases List.mem_append.mp h with h | h
  · cases hc : (api_call api (ApiMethod.get_weekly_steps today 52)).1 with
    | none => rw [hc] at h; simp at h
    | some w => rw [hc] at h; simp at h; exact Or.inl h.1
  · cases hc : (api_call api (ApiMethod.get_weekly_stress today 52)).1 with
    | none => rw [hc] at h; simp at h
    | some w => rw [hc] at h; simp at h; exact Or.inr h.1

theorem sync_profile_writes_subset (api : Api) (fs : FS) (q : FPath) (v : Json)
    (h : (q, v) ∈ writesOf (sync_profile api fs).2) :
    q = FPath.profile "user_profile.json" ∨ q = FPath.profile "devices.json" := by
  rw [sync_profile_writes] at h
  rcases List.mem_append.mp h with h | h
  · cases hc : (api_call api ApiMethod.get_user_profile).1 with
    | none => rw [hc] at h; simp at h
    | some w => rw [hc] at h; simp at h; exact Or.inl h.1
  · cases hc : (api_call api ApiMethod.get_devices).1 with
    | none => rw [hc] at h; simp at h
    | some w => rw [hc] at h; simp at h; exact Or.inr h.1

theorem sync_personal_records_writes_subset (api : Api) (fs : FS) (q : FPath) (v : Json)
    (h : (q, v) ∈ writesOf (sync_personal_records api fs).2) :
    q = FPath.personalRecords := by
  rw [sync_personal_records_writes] at h
  cases hc : (api_call api ApiMethod.get_personal_record).1 with
  | none => rw [hc] at h; simp at h
  | some w => rw [hc] at h; simp at h; exact h.1

theorem sync_body_composition_write_present (api : Api) (s e : Int) (fs : FS) (v w : Json)
    (h1 : (api_call api (ApiMethod.get_body_composition s e)).1 = some v)
    (h2 : (api_call api (ApiMethod.get_weigh_ins s e)).1 = some w) :
    (FPath.bodyComp "body_comp.json", v) ∈ writesOf (sync_body_composition api s e fs).2 ∧
    (FPath.bodyComp "weigh_ins.json", w) ∈ writesOf (sync_body_composition api s e fs).2 := by
  rw [sync_body_composition_writes, h1, h2]
  simp

theorem sync_weekly_write_present (api : Api) (today : Int) (fs : FS) (v w : Json)
    (h1 : (api_call api (ApiMethod.get_weekly_steps today 52)).1 = some v)
    (h2 : (api_call api (ApiMethod.get_weekly_stress today 52)).1 = some w) :
    (FPath.weekly "steps.json", v) ∈ writesOf (sync_weekly api today fs).2 ∧
    (FPath.weekly "stress.json", w) ∈ writesOf (sync_weekly api today fs).2 := by
  rw [sync_weekly_writes, h1, h2]
  simp

theorem sync_profile_write_present (api : Api) (fs : FS) (v w : Json)
    (h1 : (api_call api ApiMethod.get_user_profile).1 = some v)
    (h2 : (api_call api ApiMethod.get_devices).1 = some w) :
    (FPath.profile "user_profile.json", v) ∈ writesOf (sync_profile api fs).2 ∧
    (FPath.profile "devices.json", w) ∈ writesOf (sync_profile api fs).2 := by
  rw [sync_profile_writes, h1, h2]
  simp

theorem sync_personal_records_write_present (api : Api) (fs : FS) (v : Json)
    (h1 : (api_call api ApiMethod.get_personal_record).1 = some v) :
    (FPath.personalRecords, v) ∈ writesOf (sync_personal_records api fs).2 := by
  rw [sync_personal_records_writes, h1]
  simp

theorem main_sync_second_run_writes (api : Api) (fuel : Nat) (today : Int) (F : FS)
    (hload : load_sync_state F = some today)
    (hcov : dayCovered api F today)
    (hnoact : ∀ a ∈ jArr ((api_call api
        (ApiMethod.get_activities_by_date today today)).1.getD Json.null),
      truthy (jGet a "activityId") = true →
      fsExists F (FPath.activity (jGet a "activityId")) = true) :
    writesOf (main_sync api fuel today F).2 =
      writesOf (sync_body_composition api today today F).2 ++
      (writesOf (sync_weekly api today (sync_body_composition api today today F).1).2 ++
       (writesOf (sync_profile api (sync_weekly api today
          (sync_body_composition api today today F).1).1).2 ++
        (writesOf (sync_personal_records api (sync_profile api (sync_weekly api today
           (sync_body_composition api today today F).1).1).1).2 ++
         [(FPath.syncState, sync_state_json today)]))) := by
  unfold main_sync
  simp only [stepSeq_writes, stepEvs_writes, stepSeq_fst, stepEvs_fst]
  rw [hload]
  simp only [computed_start_date]
  obtain ⟨hd1, hd2⟩ := sync_daily_one_day_noop api today F hcov
  obtain ⟨ha1, ha2⟩ := sync_activities_incremental_covered_noop api today today F hnoact
  rw [hd2, hd1, ha2, ha1]
  simp [save_sync_state_writes, writesOf_cons_sleep, writesOf_nil]

/-- C1: running the sync phase of `main` twice with the same deterministic
remote API, starting from a sane state (any prior sync date is not in the
future), with no new activities in the second run's window (every activity the
by-date listing returns for `[today, today]` with a truthy id is already
cached after the first run) and with the unconditional-group fetches
succeeding, the second run writes only the unconditionally refreshed files
(body composition, weigh-ins, weekly steps and stress, user profile, devices,
personal records) and the sync-state file: zero writes to the cache-checked
daily per-date metric files and activity files.  Each unconditional path is
indeed rewritten, and the sync-state file is rewritten with today's date on
both runs. -/
theorem C1_second_run_only_unconditional_writes (api : Api) (fuel : Nat) (today : Int)
    (fs0 : FS)
    (hstate : ∀ x, load_sync_state fs0 = some x → x ≤ today)
    (hnoact : ∀ a ∈ jArr ((api_call api
        (ApiMethod.get_activities_by_date today today)).1.getD Json.null),
      truthy (jGet a "activityId") = true →
      fsExists (main_sync api fuel today fs0).1
        (FPath.activity (jGet a "activityId")) = true)
    (hbc : (api_call api (ApiMethod.get_body_composition today today)).1.isSome = true)
    (hwi : (api_call api (ApiMethod.get_weigh_ins today today)).1.isSome = true)
    (hws : (api_call api (ApiMethod.get_weekly_steps today 52)).1.isSome = true)
    (hwst : (api_call api (ApiMethod.get_weekly_stress today 52)).1.isSome = true)
    (hup : (api_call api ApiMethod.get_user_profile).1.isSome = true)
    (hdev : (api_call api ApiMethod.get_devices).1.isSome = true)
    (hpr : (api_call api ApiMethod.get_personal_record).1.isSome = true) :
    (∀ q v, (q, v) ∈ writesOf
        (main_sync api fuel today (main_sync api fuel today fs0).1).2 →
      q ∈ unconditionalPaths ∨ q = FPath.syncState) ∧
    (∀ q ∈ unconditionalPaths, ∃ v, (q, v) ∈ writesOf
        (main_sync api fuel today (main_sync api fuel today fs0).1).2) ∧
    (FPath.syncState, sync_state_json today) ∈
      writesOf (main_sync api fuel today fs0).2 ∧
    (FPath.syncState, sync_state_json today) ∈
      writesOf (main_sync api fuel today (main_sync api fuel today fs0).1).2 := by
  have hstart0 : computed_start_date (load_sync_state fs0) today ≤ today := by
    cases hls : load_sync_state fs0 with
    | none =>
      simp only [computed_start_date, HISTORY_DAYS]
      omega
    | some x =>
      simpa [computed_start_date] using hstate x hls
  have hload : load_sync_state (main_sync api fuel today fs0).1 = some today :=
    load_sync_state_main_sync api fuel today fs0
  have hcov : dayCovered api (main_sync api fuel today fs0).1 today :=
    main_sync_dayCovered api fuel today fs0 hstart0
  have hw2 := main_sync_second_run_writes api fuel today (main_sync api fuel today fs0).1
    hload hcov hnoact
  obtain ⟨v1, hv1⟩ := Option.isSome_iff_exists.mp hbc
  obtain ⟨v2, hv2⟩ := Option.isSome_iff_exists.mp hwi
  obtain ⟨v3, hv3⟩ := Option.isSome_iff_exists.mp hws
  obtain ⟨v4, hv4⟩ := Option.isSome_iff_exists.mp hwst
  obtain ⟨v5, hv5⟩ := Option.isSome_iff_exists.mp hup
  obtain ⟨v6, hv6⟩ := Option.isSome_iff_exists.mp hdev
  obtain ⟨v7, hv7⟩ := Option.isSome_iff_exists.mp hpr
  refine ⟨?_, ?_, main_sync_state_write api fuel today fs0, ?_⟩
  · intro q v hmem
    rw [hw2] at hmem
    rcases List.mem_append.mp hmem with h | h
    · rcases sync_body_composition_writes_subset api today today _ q v h with rfl | rfl <;>
        simp [unconditionalPaths]
    rcases List.mem_append.mp h with h | h
    · rcases sync_weekly_writes_subset api today _ q v h with rfl | rfl <;>
        simp [unconditionalPaths]
    rcases List.mem_append.mp h with h | h
    · rcases sync_profile_writes_subset api _ q v h with rfl | rfl <;>
        simp [unconditionalPaths]
    rcases List.mem_append.mp h with h | h
    · rw [sync_personal_records_writes_subset api _ q v h]
      simp [unconditionalPaths]
    · simp only [List.mem_singleton] at h
      injection h with h1 h2
      exact Or.inr h1
  · intro q hq
    rw [hw2]
    simp only [unconditionalPaths, List.mem_cons, List.not_mem_nil, or_false] at hq
    obtain ⟨hb1, hb2⟩ := sync_body_composition_write_present api today today
      (main_sync api fuel today fs0).1 v1 v2 hv1 hv2
    obtain ⟨hk1, hk2⟩ := sync_weekly_write_present api today
      (sync_body_composition api today today (main_sync api fuel today fs0).1).1
      v3 v4 hv3 hv4
    obtain ⟨hp1, hp2⟩ := sync_profile_write_present api
      (sync_weekly api today
        (sync_body_composition api today today (main_sync api fuel today fs0).1).1).1
      v5 v6 hv5 hv6
    have hr1 := sync_personal_records_write_present api
      (sync_profile api (sync_weekly api today
        (sync_body_composition api today today (main_sync api fuel today fs0).1).1).1).1
      v7 hv7
    rcases hq with rfl | rfl | rfl | rfl | rfl | rfl | rfl
    · exact ⟨v1, List.mem_append.mpr (Or.inl hb1)⟩
    · exact ⟨v2, List.mem_append.mpr (Or.inl hb2)⟩
    · exact ⟨v3, List.mem_append.mpr (Or.inr (List.mem_append.mpr (Or.inl hk1)))⟩
    · exact ⟨v4, List.mem_append.mpr (Or.inr (List.mem_append.mpr (Or.inl hk2)))⟩
    · exact ⟨v5, List.mem_append.mpr (Or.inr (List.mem_append.mpr (Or.inr
        (List.mem_append.mpr (Or.inl hp1)))))⟩
    · exact ⟨v6, List.mem_append.mpr (Or.inr (List.mem_append.mpr (Or.inr
        (List.mem_append.mpr (Or.inl hp2)))))⟩
    · exact ⟨v7, List.mem_append.mpr (Or.inr (List.mem_append.mpr (Or.inr
        (List.mem_append.mpr (Or.inr (List.mem_append.mpr (Or.inl hr1)))))))⟩
  · exact main_sync_state_write api fuel today (main_sync api fuel today fs0).1

/-- Witness for C1 with today = 0, a prior state file for day 0, and an API
returning an empty activity list and null documents. -/
theorem C1_second_run_witness :
    (FPath.syncState, sync_state_json 0) ∈
      writesOf (main_sync (fun m _ =>
        match m with
        | ApiMethod.get_activities_by_date _ _ => CallOutcome.ok (Json.arr [])
        | ApiMethod.get_activities _ _ => CallOutcome.ok (Json.arr [])
        | _ => CallOutcome.ok Json.null) 1 0
        [(FPath.syncState, sync_state_json 0)]).2 ∧
    (FPath.syncState, sync_state_json 0) ∈
      writesOf (main_sync (fun m _ =>
        match m with
        | ApiMethod.get_activities_by_date _ _ => CallOutcome.ok (Json.arr [])
        | ApiMethod.get_activities _ _ => CallOutcome.ok (Json.arr [])
        | _ => CallOutcome.ok Json.null) 1 0
        (main_sync (fun m _ =>
          match m with
          | ApiMethod.get_activities_by_date _ _ => CallOutcome.ok (Json.arr [])
          | ApiMethod.get_activities _ _ => CallOutcome.ok (Json.arr [])
          | _ => CallOutcome.ok Json.null) 1 0
          [(FPath.syncState, sync_state_json 0)]).1).2 :=
  ⟨(C1_second_run_only_unconditional_writes (fun m _ =>
      match m with
      | ApiMethod.get_activities_by_date _ _ => CallOutcome.ok (Json.arr [])
      | ApiMethod.get_activities _ _ => CallOutcome.ok (Json.arr [])
      | _ => CallOutcome.ok Json.null) 1 0 [(FPath.syncState, sync_state_json 0)]
      (by
        intro x hx
        simp [load_sync_state, fsLookup, jGet, lookupField, truthy, parse_iso_date,
          sync_state_json] at hx
        omega)
      (by decide) (by decide) (by decide) (by decide) (by decide) (by decide)
      (by decide) (by decide)).2.2.1,
   (C1_second_run_only_unconditional_writes (fun m _ =>
      match m with
      | ApiMethod.get_activities_by_date _ _ => CallOutcome.ok (Json.arr [])
      | ApiMethod.get_activities _ _ => CallOutcome.ok (Json.arr [])
      | _ => CallOutcome.ok Json.null) 1 0 [(FPath.syncState, sync_state_json 0)]
      (by
        intro x hx
        simp [load_sync_state, fsLookup, jGet, lookupField, truthy, parse_iso_date,
          sync_state_json] at hx
        omega)
      (by decide) (by decide) (by decide) (by decide) (by decide) (by decide)
      (by decide) (by decide)).2.2.2⟩
